import Mathlib

/-!
# The `bt` wire format: frame encoder, buffered socket reader, response decoder

A shallow embedding of

* `bt::encode` and `bt::encode_array` (`src/lib/include/bt/bt.hpp`),
* `btcmd::CSocketBuffer::Read` (`src/cmd/src/socket_buffer.cpp`), once over a socket that
  returns the number of bytes it stored (`Read`) and once with the returned `size_t` kept apart
  (`ReadC`), together with `Recv` of the platform sockets (`src/cmd/src/socket_unix.cpp`,
  `src/cmd/src/socket_win32.cpp`),
* the response decoding part of `main` (`src/cmd/src/main.cpp`, from the
  construction of the `CSocketBuffer` to the final `return`).

Conventions.  A `char` is modelled by its unsigned value, a `Nat` below 256;
`std::vector<char>`, `std::array<char, N>` and `std::string` are `List Nat`.
Fixed-width unsigned arithmetic is written with an explicit `%`.  The host
byte order (`std::endian::native`) is a parameter of every function whose
source branches on it.
-/

set_option autoImplicit false

/-! ## Machine constants and object representations -/

/-- The value of `UINT16_MAX`. -/
def UINT16_MAX : Nat := 65535

/-- One more than `SIZE_MAX`: `size_t` arithmetic is taken modulo this (a 64-bit host). -/
def SIZE_MOD : Nat := 18446744073709551616

/-- The value of `PTRDIFF_MAX` on a 64-bit host; no C++ object is larger than this. -/
def PTRDIFF_MAX : Nat := 9223372036854775807

/-- The value of `SIZE_MAX` on a 64-bit host: what `-1` becomes when converted to `size_t`. -/
def SIZE_MAX : Nat := 18446744073709551615

/-- The possible values of `std::endian::native`. -/
inductive Endian where
  | little
  | big
  deriving DecidableEq, Repr

/-- The two bytes that `reinterpret_cast<const char*>( &x )` sees for a `uint16_t x`,
in address order, on a host of the given byte order. -/
def object_bytes16 (native : Endian) (x : Nat) : List Nat :=
  match native with
  | Endian.little => [x % 256, x / 256 % 256]
  | Endian.big => [x / 256 % 256, x % 256]

/-- The unsigned integer whose object representation (bytes in address order) is `bytes`
on a host of the given byte order: what `memcpy( &x, bytes, n )` leaves in `x`. -/
def object_value (native : Endian) (bytes : List Nat) : Nat :=
  match native with
  | Endian.little => bytes.foldr (fun b acc => b + 256 * acc) 0
  | Endian.big => bytes.foldl (fun acc b => acc * 256 + b) 0

/-- The effect of `memcpy( dst + off, src, n )` on the contents of `dst`. -/
def memcpy (dst : List Nat) (off : Nat) (src : List Nat) (n : Nat) : List Nat :=
  dst.take off ++ src.take n ++ dst.drop (off + n)

/-- The effect of `v.resize( n )` (equally `v.resize( n, 0 )`) on a `std::vector<char>`:
cut to `n` elements, new elements are zero. -/
def resize (v : List Nat) (n : Nat) : List Nat :=
  v.take n ++ List.replicate (n - v.length) 0

/-! ## `bt::encode` -/

namespace bt

/-- The enumeration `bt::EResult`. -/
inductive EResult where
  | Ok
  | DataTooLong
  deriving DecidableEq, Repr

/-- The function `bt::encode( const char* data, const size_t length )`, called with the
`length = data.length` bytes of `data`.  `length + 6` is a `size_t` sum, `packet_size` its
cast to `uint16_t`; `packet_size_bytes` is the object representation of `packet_size`. -/
def encode (native : Endian) (data : List Nat) : EResult × List Nat :=
  let length := data.length
  if (length + 6) % SIZE_MOD > UINT16_MAX then
    (EResult.DataTooLong, [])
  else
    let packet_size := ((length + 6) % SIZE_MOD) % 65536
    let packet_size_bytes := object_bytes16 native packet_size
    let swapBytes : Bool := decide (native = Endian.little)
    let result := [0x00, 0x83,
                   packet_size_bytes.getD (if swapBytes then 1 else 0) 0,
                   packet_size_bytes.getD (if swapBytes then 0 else 1) 0,
                   0x00, 0x00, 0x00, 0x00, 0x00]
    let old_size := result.length
    let result := resize result (result.length + length + 1)
    let result := memcpy result old_size data length
    (EResult.Ok, result)

/-! ## `bt::encode_array` -/

/-- The variable template `data_fits_v<DataSize>`: `DataSize + 6 <= UINT16_MAX`, the sum taken
in `int` after the promotion of the `uint16_t` parameter. -/
def data_fits_v (DataSize : Nat) : Bool :=
  decide (DataSize + 6 ≤ UINT16_MAX)

/-- The variable template `message_size_v<DataSize>`: the `int` sum `10 + DataSize` converted to
the declared type `uint16_t`. -/
def message_size_v (DataSize : Nat) : Nat :=
  (10 + DataSize) % 65536

/-- The conversion `static_cast<char>( x )` of an integer, as the unsigned value of the
resulting byte. -/
def static_cast_char (x : Nat) : Nat :=
  x % 256

/-- The function template `bt::encode_array<ArraySize>( const char* data )`.  The result is
`none` when the instantiation is ill-formed: the constraint `data_fits_v<ArraySize>` fails, or
`std::array<char, message_size_v<ArraySize>>` has fewer elements than the nine initializers.
Otherwise the array starts with the nine initializers, the other elements are zero, and the
loop copies `data[i - 9]` to `dst[i]` for `i` from 9 up to, not including,
`message_size_v<ArraySize> - 1`. -/
def encode_array (native : Endian) (ArraySize : Nat) (data : List Nat) : Option (List Nat) :=
  if data_fits_v ArraySize = false then
    none
  else
    let packet_size := (ArraySize + 6) % 65536
    let packet_size_bytes :=
      match native with
      | Endian.little =>
        [static_cast_char (packet_size >>> 8), static_cast_char packet_size]
      | Endian.big =>
        [static_cast_char packet_size, static_cast_char (packet_size <<< 8)]
    let initializers := [0x00, 0x83,
                         packet_size_bytes.getD 0 0,
                         packet_size_bytes.getD 1 0,
                         0x00, 0x00, 0x00, 0x00, 0x00]
    if message_size_v ArraySize < initializers.length then
      none
    else
      let result :=
        initializers ++ List.replicate (message_size_v ArraySize - initializers.length) 0
      some ((List.range' 9 (message_size_v ArraySize - 1 - 9)).foldl
        (fun dst i => dst.set i (data.getD (i - 9) 0)) result)

end bt

/-! ## `btcmd::ISocket` and `btcmd::CSocketBuffer` -/

namespace btcmd

/-- The interface `ISocket`, reduced to its virtual `Recv( char* dst, int length )`, for a
socket whose `Recv` returns the number of bytes it stored.  A socket object is a state of type
`σ`; `Recv` yields the bytes it wrote to `dst` (their number is the returned `size_t`) and the
socket's next state.  A `Recv` that returns anything else, such as the `SIZE_MAX` that the
platform sockets return when `recv` fails, is an `ISocketC`, read by `CSocketBuffer.ReadC`. -/
structure ISocket (σ : Type) where
  Recv : σ → Int → List Nat × σ

/-- The conversion `static_cast<int>( n )` of a `size_t` to a 32-bit `int`. -/
def static_cast_int (n : Nat) : Int :=
  if n % 4294967296 < 2147483648 then ((n % 4294967296 : Nat) : Int)
  else ((n % 4294967296 : Nat) : Int) - 4294967296

/-- The data members of `CSocketBuffer`; a fresh object has `mCursor = 0` and an empty
`mBuffer`. -/
structure CSocketBuffer (σ : Type) where
  mCursor : Nat
  mBuffer : List Nat
  mSocket : σ
  deriving DecidableEq, Repr

/-- The constructor `CSocketBuffer( std::unique_ptr<ISocket>&& socket )` with the default
member initializers `mCursor = 0` and an empty `mBuffer`. -/
def CSocketBuffer.ctor {σ : Type} (socket : σ) : CSocketBuffer σ :=
  { mCursor := 0, mBuffer := [], mSocket := socket }

/-- What a call of `CSocketBuffer::Read` leaves behind: the returned `bool`, the bytes copied
to `dst` (none when nothing was copied) and the object afterwards. -/
structure ReadResult (σ : Type) where
  ok : Bool
  dst : List Nat
  self : CSocketBuffer σ
  deriving DecidableEq, Repr

/-- The last three statements of `CSocketBuffer::Read`: copy `length` bytes from the cursor
to `dst`, advance the cursor, return `true`. -/
def CSocketBuffer.copy_out {σ : Type} (self : CSocketBuffer σ) (length : Nat) : ReadResult σ :=
  { ok := true
    dst := (self.mBuffer.drop self.mCursor).take length
    self := { self with mCursor := self.mCursor + length } }

/-- The member function `CSocketBuffer::Read( char* dst, size_t length )`.  `mCursor + length`
is a `size_t` sum. -/
def CSocketBuffer.Read {σ : Type} (sock : ISocket σ) (self : CSocketBuffer σ) (length : Nat) :
    ReadResult σ :=
  if self.mCursor = self.mBuffer.length
      ∨ (self.mCursor + length) % SIZE_MOD > self.mBuffer.length then
    let bufferSize := max length 256
    let oldSize := self.mBuffer.length
    let grown := resize self.mBuffer (oldSize + bufferSize)
    let recv := sock.Recv self.mSocket (static_cast_int bufferSize)
    let bytesRecv := recv.1.length
    let filled := memcpy grown oldSize recv.1 bytesRecv
    let self1 : CSocketBuffer σ :=
      { mCursor := self.mCursor, mBuffer := resize filled (oldSize + bytesRecv), mSocket := recv.2 }
    if self1.mCursor = self1.mBuffer.length
        ∨ (self1.mCursor + length) % SIZE_MOD ≥ self1.mBuffer.length then
      { ok := false, dst := [], self := self1 }
    else
      self1.copy_out length
  else
    self.copy_out length

/-! ## The response decoder in `main` -/

deriving instance DecidableEq for Except

/-- The value that `main` prints on success: the string, the float (as its 32-bit pattern)
or `NULL`. -/
inductive Value where
  | String (result : List Nat)
  | Float32 (bits : Nat)
  | Null
  deriving DecidableEq, Repr

/-- The failures of `main` after the request was sent, after the message printed:
`Unexpected eof`, `Invalid magic`, `Unsupported type: 0x..`. -/
inductive DecodeError where
  | UnexpectedEof
  | InvalidMagic
  | UnsupportedType (dataType : Nat)
  deriving DecidableEq, Repr

/-- The outcome of the decoding part of `main`: `Except.ok` stands for `return 0` with the
value printed, `Except.error` for `return -1` with the message printed. -/
structure Decoded (σ : Type) where
  result : Except DecodeError Value
  socketBuffer : CSocketBuffer σ
  deriving DecidableEq

/-- Lines 166-178 of `main`: the `uint16_t dataSize` assembled from the two bytes read after
the magic (shifts and ors on a little-endian host, `memcpy` on a big-endian one), followed by
`dataSize -= 2` in `uint16_t` arithmetic. -/
def main_dataSize (native : Endian) (dataSizeBytes : List Nat) : Nat :=
  let dataSize : Nat :=
    match native with
    | Endian.little =>
      let dataSize := (0 ||| ((dataSizeBytes.getD 0 0 % 256) <<< 8)) % 65536
      (dataSize ||| (dataSizeBytes.getD 1 0 % 256)) % 65536
    | Endian.big => object_value Endian.big dataSizeBytes
  (dataSize + 65536 - 2) % 65536

/-- Lines 216-228 of `main`: the bit pattern of the `float result` filled by `memcpy` from
`floatBytes` (little-endian host) or from their `reverse_copy` (big-endian host). -/
def main_float (native : Endian) (floatBytes : List Nat) : Nat :=
  match native with
  | Endian.little => object_value Endian.little floatBytes
  | Endian.big => object_value Endian.big floatBytes.reverse

/-- The part of `main` from the construction of `socketBuffer` to the end, for a socket on
which the request has been sent. -/
def main {σ : Type} (native : Endian) (sock : ISocket σ) (socket : σ) : Decoded σ :=
  let socketBuffer : CSocketBuffer σ := { mCursor := 0, mBuffer := [], mSocket := socket }
  let r := socketBuffer.Read sock 2
  if r.ok = false then
    { result := Except.error DecodeError.UnexpectedEof, socketBuffer := r.self }
  else
  let magic := r.dst
  if magic.getD 0 0 ≠ 0x0 ∨ magic.getD 1 0 % 256 ≠ 0x83 then
    { result := Except.error DecodeError.InvalidMagic, socketBuffer := r.self }
  else
  let r := r.self.Read sock 2
  if r.ok = false then
    { result := Except.error DecodeError.UnexpectedEof, socketBuffer := r.self }
  else
  let dataSize := main_dataSize native r.dst
  let r := r.self.Read sock 1
  if r.ok = false then
    { result := Except.error DecodeError.UnexpectedEof, socketBuffer := r.self }
  else
  let dataType := r.dst.getD 0 0
  if dataType = 0x06 then
    let r := r.self.Read sock dataSize
    if r.ok = false then
      { result := Except.error DecodeError.UnexpectedEof, socketBuffer := r.self }
    else
      { result := Except.ok (Value.String r.dst), socketBuffer := r.self }
  else if dataType = 0x2A then
    let r := r.self.Read sock 4
    if r.ok = false then
      { result := Except.error DecodeError.UnexpectedEof, socketBuffer := r.self }
    else
      { result := Except.ok (Value.Float32 (main_float native r.dst)), socketBuffer := r.self }
  else if dataType = 0x00 then
    { result := Except.ok Value.Null, socketBuffer := r.self }
  else
    { result := Except.error (DecodeError.UnsupportedType dataType), socketBuffer := r.self }

/-! ## Transports over a finite stream -/

/-- A socket whose peer has sent `stream` and closed: `Recv` hands back as many of the
remaining bytes as fit in `length`, and 0 bytes at end of stream.  The state is the part of
the stream not yet received. -/
def stream_socket : ISocket (List Nat) where
  Recv := fun rest length => (rest.take length.toNat, rest.drop length.toNat)

/-- A socket that hands back at most `chunk` bytes of the remaining stream per `Recv`. -/
def chunk_socket (chunk : Nat) : ISocket (List Nat) where
  Recv := fun rest length =>
    (rest.take (min chunk length.toNat), rest.drop (min chunk length.toNat))

/-- A socket at end of stream that keeps a log of the `length` arguments it was called with:
every `Recv` hands back 0 bytes. -/
def probe_socket : ISocket (List Int) where
  Recv := fun log length => ([], log ++ [length])

/-! ## `Recv` with its returned `size_t`

`ISocket::Recv` returns a `size_t` that `CSocketBuffer::Read` takes for the number of bytes
received.  The platform sockets return the result of `recv`, so that a failed `recv` returns
`SIZE_MAX`.  Here the returned `size_t` is kept apart from the bytes stored, the `size_t` sums
of `Read` wrap, and a `resize` beyond `max_size()` ends the program. -/

/-- The interface `ISocket` with the `size_t` that `Recv( char* dst, int length )` returns kept
apart from the bytes it stored at `dst`: a call yields the returned `size_t`, the bytes stored
and the socket's next state. -/
structure ISocketC (σ : Type) where
  Recv : σ → Int → Nat × List Nat × σ

/-- An `ISocket` as an `ISocketC`: the returned `size_t` is the number of bytes stored. -/
def ISocket.toC {σ : Type} (sock : ISocket σ) : ISocketC σ where
  Recv := fun s length =>
    ((sock.Recv s length).1.length, (sock.Recv s length).1, (sock.Recv s length).2)

/-- The bytes part of an `ISocketC`: the `ISocket` that hands back what `Recv` stored. -/
def ISocketC.bytes {σ : Type} (sock : ISocketC σ) : ISocket σ where
  Recv := fun s length => ((sock.Recv s length).2.1, (sock.Recv s length).2.2)

/-- The member function `CUnixSocket::Recv` (and `CWin32Socket::Recv`, which has the same
body): `return recv( mSocket, dst, length, 0 )`, the signed result of the system's `recv`
converted to the return type `size_t`.  The system's `recv` is a parameter: it yields its
result (`-1` for an error), the bytes it stored and the next state. -/
def CUnixSocket {σ : Type} (recv : σ → Int → Int × List Nat × σ) : ISocketC σ where
  Recv := fun s length =>
    (((recv s length).1 % (SIZE_MOD : Int)).toNat, (recv s length).2.1, (recv s length).2.2)

/-- A system `recv` that fails on every call: it returns `-1` and stores nothing. -/
def recv_error : Unit → Int → Int × List Nat × Unit :=
  fun s _ => (-1, [], s)

/-- The member function `CSocketBuffer::Read( char* dst, size_t length )` over an `ISocketC`.
The sums `mCursor + length`, `oldSize + bufferSize` and `oldSize + bytesRecv` are `size_t`
sums.  The result is `none` when the call does not return: `mBuffer.resize` throws
`std::length_error` for a size beyond `max_size()`, taken as `PTRDIFF_MAX`, and the function is
`noexcept`. -/
def CSocketBuffer.ReadC {σ : Type} (sock : ISocketC σ) (self : CSocketBuffer σ)
    (length : Nat) : Option (ReadResult σ) :=
  if self.mCursor = self.mBuffer.length
      ∨ (self.mCursor + length) % SIZE_MOD > self.mBuffer.length then
    let bufferSize := max length 256
    let oldSize := self.mBuffer.length
    if (oldSize + bufferSize) % SIZE_MOD > PTRDIFF_MAX then
      none
    else
      let grown := resize self.mBuffer ((oldSize + bufferSize) % SIZE_MOD)
      let recv := sock.Recv self.mSocket (static_cast_int bufferSize)
      let bytesRecv := recv.1
      let filled := memcpy grown oldSize recv.2.1 recv.2.1.length
      if (oldSize + bytesRecv) % SIZE_MOD > PTRDIFF_MAX then
        none
      else
        let self1 : CSocketBuffer σ :=
          { mCursor := self.mCursor,
            mBuffer := resize filled ((oldSize + bytesRecv) % SIZE_MOD),
            mSocket := recv.2.2 }
        if self1.mCursor = self1.mBuffer.length
            ∨ (self1.mCursor + length) % SIZE_MOD ≥ self1.mBuffer.length then
          some { ok := false, dst := [], self := self1 }
        else
          some (self1.copy_out length)
  else
    some (self.copy_out length)

end btcmd

/-! ## Lemmas on the vector operations -/

open btcmd

/-- Growing a vector by `k` elements appends `k` zeros. -/
theorem resize_grow (v : List Nat) (k : Nat) :
    resize v (v.length + k) = v ++ List.replicate k 0 := by
  unfold resize
  rw [List.take_of_length_le (by omega)]
  congr 2
  omega

/-- Resizing a vector to its own size changes nothing. -/
theorem resize_exact (v : List Nat) : resize v v.length = v := by
  simpa using resize_grow v 0

/-- Copying all of `src` to the position right after the prefix `v` of the destination. -/
theorem memcpy_at_end (v zs src : List Nat) :
    memcpy (v ++ zs) v.length src src.length = v ++ src ++ zs.drop src.length := by
  unfold memcpy
  rw [List.take_left, List.take_length, List.drop_append]

/-! ## Lemmas on `bt::encode` -/

/-- The `resize` and `memcpy` of `encode`: the header, the data, one zero byte. -/
theorem memcpy_append_zeros (hdr data : List Nat) :
    memcpy (resize hdr (hdr.length + data.length + 1)) hdr.length data data.length
      = hdr ++ data ++ [0] := by
  rw [Nat.add_assoc, resize_grow, memcpy_at_end, List.drop_replicate]
  simp

/-- The output of `encode` for a payload that fits: magic, size (high byte, low byte), five
zero bytes, the payload, one zero byte. -/
theorem encode_frame (native : Endian) (payload : List Nat)
    (h : payload.length + 6 ≤ 65535) :
    bt.encode native payload
      = (bt.EResult.Ok,
          [0x00, 0x83] ++ [(payload.length + 6) / 256, (payload.length + 6) % 256]
            ++ [0, 0, 0, 0, 0] ++ payload ++ [0x00]) := by
  have hmod : (payload.length + 6) % SIZE_MOD = payload.length + 6 :=
    Nat.mod_eq_of_lt (by unfold SIZE_MOD; omega)
  have h16 : (payload.length + 6) % 65536 = payload.length + 6 :=
    Nat.mod_eq_of_lt (by omega)
  have hhi : (payload.length + 6) / 256 % 256 = (payload.length + 6) / 256 :=
    Nat.mod_eq_of_lt (by omega)
  have hcopy := memcpy_append_zeros
    [0x00, 0x83, (payload.length + 6) / 256, (payload.length + 6) % 256, 0, 0, 0, 0, 0] payload
  unfold bt.encode
  simp only [hmod, h16]
  rw [if_neg (by unfold UINT16_MAX; omega)]
  cases native <;> simpa [object_bytes16, hhi] using hcopy

/-- The guard of `encode`: a payload of more than 65529 bytes is refused with an empty
vector. -/
theorem encode_too_long (native : Endian) (payload : List Nat)
    (hobj : payload.length ≤ PTRDIFF_MAX) (h : payload.length + 6 > 65535) :
    bt.encode native payload = (bt.EResult.DataTooLong, []) := by
  have hmod : (payload.length + 6) % SIZE_MOD = payload.length + 6 :=
    Nat.mod_eq_of_lt (by unfold SIZE_MOD; unfold PTRDIFF_MAX at hobj; omega)
  unfold bt.encode
  simp only [hmod]
  rw [if_pos (by unfold UINT16_MAX; omega)]

/-! ## Lemmas on `CSocketBuffer::Read` -/

/-- The accumulator after the transport call of `Read`: the old contents followed by the
received bytes. -/
theorem recv_buffer (b bs : List Nat) (m : Nat) :
    resize (memcpy (resize b (b.length + m)) b.length bs bs.length) (b.length + bs.length)
      = b ++ bs := by
  rw [resize_grow, memcpy_at_end]
  unfold resize
  have h1 : b.length + bs.length = (b ++ bs).length := by simp
  rw [h1, List.take_left]
  simp

/-- The function `Read` with the accumulator after the transport call written as an append. -/
theorem Read_eq {σ : Type} (sock : ISocket σ) (self : CSocketBuffer σ) (n : Nat) :
    self.Read sock n =
      if self.mCursor = self.mBuffer.length
          ∨ (self.mCursor + n) % SIZE_MOD > self.mBuffer.length then
        if self.mCursor = (self.mBuffer ++ (sock.Recv self.mSocket
                (static_cast_int (max n 256))).1).length
            ∨ (self.mCursor + n) % SIZE_MOD ≥ (self.mBuffer ++ (sock.Recv self.mSocket
                (static_cast_int (max n 256))).1).length then
          { ok := false, dst := [],
            self := { mCursor := self.mCursor,
                      mBuffer := self.mBuffer
                        ++ (sock.Recv self.mSocket (static_cast_int (max n 256))).1,
                      mSocket := (sock.Recv self.mSocket (static_cast_int (max n 256))).2 } }
        else
          CSocketBuffer.copy_out
            { mCursor := self.mCursor,
              mBuffer := self.mBuffer
                ++ (sock.Recv self.mSocket (static_cast_int (max n 256))).1,
              mSocket := (sock.Recv self.mSocket (static_cast_int (max n 256))).2 } n
      else self.copy_out n := by
  unfold CSocketBuffer.Read
  simp only [recv_buffer]

/-- A read served from the accumulator: no transport call. -/
theorem Read_buffered {σ : Type} (sock : ISocket σ) (c : Nat) (b : List Nat) (s : σ) (n : Nat)
    (hc : c < b.length) (hn : c + n ≤ b.length) (hsz : c + n < SIZE_MOD) :
    CSocketBuffer.Read sock { mCursor := c, mBuffer := b, mSocket := s } n
      = { ok := true, dst := (b.drop c).take n,
          self := { mCursor := c + n, mBuffer := b, mSocket := s } } := by
  rw [Read_eq]
  dsimp only
  rw [Nat.mod_eq_of_lt hsz, if_neg (by omega)]
  rfl

/-- The first read on a fresh reader: one transport call, success only when it brought more
than `n` bytes. -/
theorem Read_fresh {σ : Type} (sock : ISocket σ) (s : σ) (n : Nat) (hsz : n < SIZE_MOD) :
    CSocketBuffer.Read sock { mCursor := 0, mBuffer := [], mSocket := s } n
      = if (sock.Recv s (static_cast_int (max n 256))).1.length ≤ n then
          { ok := false, dst := [],
            self := { mCursor := 0,
                      mBuffer := (sock.Recv s (static_cast_int (max n 256))).1,
                      mSocket := (sock.Recv s (static_cast_int (max n 256))).2 } }
        else
          { ok := true, dst := (sock.Recv s (static_cast_int (max n 256))).1.take n,
            self := { mCursor := n,
                      mBuffer := (sock.Recv s (static_cast_int (max n 256))).1,
                      mSocket := (sock.Recv s (static_cast_int (max n 256))).2 } } := by
  rw [Read_eq]
  dsimp only
  simp only [List.nil_append, Nat.zero_add, Nat.mod_eq_of_lt hsz, CSocketBuffer.copy_out,
    List.drop_zero, List.length_nil, true_or, if_true]
  by_cases h : (sock.Recv s (static_cast_int (max n 256))).1.length ≤ n
  · rw [if_pos (Or.inr h), if_pos h]
  · rw [if_neg (by omega), if_neg h]

/-- When `Read` has to call the transport, it returns `true` exactly when the call leaves
strictly more than `n` unread bytes. -/
theorem Read_ok_iff_of_recv {σ : Type} (sock : ISocket σ) (self : CSocketBuffer σ) (n : Nat)
    (hinv : self.mCursor ≤ self.mBuffer.length)
    (hshort : self.mBuffer.length - self.mCursor < n)
    (hsz : self.mCursor + n < SIZE_MOD) :
    (self.Read sock n).ok = true
      ↔ n < self.mBuffer.length
            + (sock.Recv self.mSocket (static_cast_int (max n 256))).1.length - self.mCursor := by
  rw [Read_eq, if_pos (Or.inr (by rw [Nat.mod_eq_of_lt hsz]; omega)), Nat.mod_eq_of_lt hsz]
  simp only [List.length_append]
  by_cases h : n < self.mBuffer.length
            + (sock.Recv self.mSocket (static_cast_int (max n 256))).1.length - self.mCursor
  · rw [if_neg (by omega)]
    simp [CSocketBuffer.copy_out, h]
  · rw [if_pos (by omega)]
    simp [h]


/-! ## Lemmas on the decoder in `main` -/

/-- The `int` passed to `Recv` when at most 256 bytes are asked of `Read`. -/
theorem static_cast_int_256 (n : Nat) (h : n ≤ 256) : static_cast_int (max n 256) = 256 := by
  rw [Nat.max_eq_right h]
  decide

/-- The decoder in `main` once the first transport call has brought the magic, the size bytes
and the tag: the magic check, then the dispatch on the tag with the reader at cursor 5. -/
theorem main_of_chunk {σ : Type} (native : Endian) (sock : ISocket σ) (s : σ)
    (a0 a1 a2 a3 a4 : Nat) (rest : List Nat)
    (h : (sock.Recv s 256).1 = a0 :: a1 :: a2 :: a3 :: a4 :: rest) :
    main native sock s =
      if a0 ≠ 0x0 ∨ a1 % 256 ≠ 0x83 then
        { result := Except.error DecodeError.InvalidMagic,
          socketBuffer := ⟨2, (sock.Recv s 256).1, (sock.Recv s 256).2⟩ }
      else if a4 = 0x06 then
        if (CSocketBuffer.Read sock ⟨5, (sock.Recv s 256).1, (sock.Recv s 256).2⟩
              (main_dataSize native [a2, a3])).ok = false then
          { result := Except.error DecodeError.UnexpectedEof,
            socketBuffer := (CSocketBuffer.Read sock
              ⟨5, (sock.Recv s 256).1, (sock.Recv s 256).2⟩
              (main_dataSize native [a2, a3])).self }
        else
          { result := Except.ok (Value.String (CSocketBuffer.Read sock
              ⟨5, (sock.Recv s 256).1, (sock.Recv s 256).2⟩
              (main_dataSize native [a2, a3])).dst),
            socketBuffer := (CSocketBuffer.Read sock
              ⟨5, (sock.Recv s 256).1, (sock.Recv s 256).2⟩
              (main_dataSize native [a2, a3])).self }
      else if a4 = 0x2A then
        if (CSocketBuffer.Read sock
              ⟨5, (sock.Recv s 256).1, (sock.Recv s 256).2⟩ 4).ok = false then
          { result := Except.error DecodeError.UnexpectedEof,
            socketBuffer := (CSocketBuffer.Read sock
              ⟨5, (sock.Recv s 256).1, (sock.Recv s 256).2⟩ 4).self }
        else
          { result := Except.ok (Value.Float32 (main_float native (CSocketBuffer.Read sock
              ⟨5, (sock.Recv s 256).1, (sock.Recv s 256).2⟩ 4).dst)),
            socketBuffer := (CSocketBuffer.Read sock
              ⟨5, (sock.Recv s 256).1, (sock.Recv s 256).2⟩ 4).self }
      else if a4 = 0x00 then
        { result := Except.ok Value.Null,
          socketBuffer := ⟨5, (sock.Recv s 256).1, (sock.Recv s 256).2⟩ }
      else
        { result := Except.error (DecodeError.UnsupportedType a4),
          socketBuffer := ⟨5, (sock.Recv s 256).1, (sock.Recv s 256).2⟩ } := by
  have hlen : (sock.Recv s 256).1.length = rest.length + 5 := by rw [h]; rfl
  have r1 := Read_fresh sock s 2 (by decide)
  rw [static_cast_int_256 2 (by decide), if_neg (by omega)] at r1
  have r2 := Read_buffered sock 2 (sock.Recv s 256).1 (sock.Recv s 256).2 2
    (by omega) (by omega) (by decide)
  have r3 := Read_buffered sock (2 + 2) (sock.Recv s 256).1 (sock.Recv s 256).2 1
    (by omega) (by omega) (by decide)
  unfold main
  simp only [r1, r2, r3]
  simp [h]

/-- The size decoding of `main` on two bytes: the big-endian 16-bit value less 2, modulo
`2^16`, on either host. -/
theorem main_dataSize_eq (native : Endian) (hi lo : Nat) (hhi : hi < 256) (hlo : lo < 256) :
    main_dataSize native [hi, lo] = (hi * 256 + lo + 65536 - 2) % 65536 := by
  cases native
  · have h1 : (hi % 256) <<< 8 = 2 ^ 8 * hi := by
      rw [Nat.mod_eq_of_lt hhi, Nat.shiftLeft_eq, Nat.mul_comm]
    have h2 : 2 ^ 8 * hi ||| lo = 2 ^ 8 * hi + lo :=
      (Nat.mul_add_lt_is_or (by omega) hi).symm
    have h3 : 2 ^ 8 * hi % 65536 = 2 ^ 8 * hi := Nat.mod_eq_of_lt (by omega)
    have h4 : (2 ^ 8 * hi + lo) % 65536 = 2 ^ 8 * hi + lo := Nat.mod_eq_of_lt (by omega)
    simp only [main_dataSize, List.getD_cons_zero, List.getD_cons_succ, Nat.zero_or, h1, h3,
      Nat.mod_eq_of_lt hlo, h2, h4]
    congr 1
    omega
  · simp [main_dataSize, object_value]

/-- A stream whose first transport call brings more than two bytes, the first two not the
magic: `Invalid magic`, with the cursor at 2. -/
theorem main_invalid_magic {σ : Type} (native : Endian) (sock : ISocket σ) (s : σ)
    (a0 a1 a2 : Nat) (rest : List Nat)
    (h : (sock.Recv s 256).1 = a0 :: a1 :: a2 :: rest) (hm : a0 ≠ 0x0 ∨ a1 % 256 ≠ 0x83) :
    main native sock s
      = { result := Except.error DecodeError.InvalidMagic,
          socketBuffer := ⟨2, (sock.Recv s 256).1, (sock.Recv s 256).2⟩ } := by
  have hlen : (sock.Recv s 256).1.length = rest.length + 3 := by rw [h]; rfl
  have r1 := Read_fresh sock s 2 (by decide)
  rw [static_cast_int_256 2 (by decide), if_neg (by omega)] at r1
  unfold main
  simp only [r1]
  simp [h, hm]

/-- The cast to `int` keeps a value below `2^31`. -/
theorem static_cast_int_of_lt (n : Nat) (h : n < 2147483648) :
    static_cast_int n = (n : Int) := by
  unfold static_cast_int
  rw [Nat.mod_eq_of_lt (by omega), if_pos h]

/-- One `Recv` on a finite stream. -/
theorem stream_socket_Recv (stream : List Nat) (n : Nat) :
    stream_socket.Recv stream (n : Int) = (stream.take n, stream.drop n) := by
  simp [stream_socket]

/-- The size bytes of a string frame decode to the length of the string. -/
theorem main_dataSize_frame (native : Endian) (n : Nat) (h : n + 2 ≤ 65535) :
    main_dataSize native [(n + 2) / 256, (n + 2) % 256] = n := by
  rw [main_dataSize_eq native _ _ (by omega) (by omega)]
  omega

/-- A string frame of at most 256 bytes, received whole by the first transport call, decodes
to its string. -/
theorem main_string_short (native : Endian) (v : List Nat)
    (h1 : 0 < v.length) (h2 : v.length ≤ 251) :
    main native stream_socket
        ([0x00, 0x83, (v.length + 2) / 256, (v.length + 2) % 256, 0x06] ++ v)
      = { result := Except.ok (Value.String v),
          socketBuffer :=
            ⟨5 + v.length,
              [0x00, 0x83, (v.length + 2) / 256, (v.length + 2) % 256, 0x06] ++ v, []⟩ } := by
  have hrecv : stream_socket.Recv
      ([0x00, 0x83, (v.length + 2) / 256, (v.length + 2) % 256, 0x06] ++ v) 256
      = ([0x00, 0x83, (v.length + 2) / 256, (v.length + 2) % 256, 0x06] ++ v, []) := by
    rw [show (256 : Int) = ((256 : Nat) : Int) from rfl, stream_socket_Recv,
      List.take_of_length_le (by simp; omega), List.drop_of_length_le (by simp; omega)]
  have r4 := Read_buffered stream_socket 5
    ([0x00, 0x83, (v.length + 2) / 256, (v.length + 2) % 256, 0x06] ++ v) [] v.length
    (by simp; omega) (by simp; omega) (by unfold SIZE_MOD; omega)
  rw [main_of_chunk native stream_socket _ 0x00 0x83 ((v.length + 2) / 256)
    ((v.length + 2) % 256) 0x06 v (by rw [hrecv]; rfl), hrecv,
    main_dataSize_frame native v.length (by omega), r4]
  simp

/-- A string frame of more than 256 bytes, received by the transport calls that `main` makes:
the read of the value brings the rest of the frame and fails all the same. -/
theorem main_string_long (native : Endian) (v : List Nat)
    (h1 : 252 ≤ v.length) (h2 : v.length + 2 ≤ 65535) :
    main native stream_socket
        ([0x00, 0x83, (v.length + 2) / 256, (v.length + 2) % 256, 0x06] ++ v)
      = { result := Except.error DecodeError.UnexpectedEof,
          socketBuffer :=
            ⟨5, [0x00, 0x83, (v.length + 2) / 256, (v.length + 2) % 256, 0x06] ++ v, []⟩ } := by
  have hrecv : stream_socket.Recv
      ([0x00, 0x83, (v.length + 2) / 256, (v.length + 2) % 256, 0x06] ++ v) 256
      = ([0x00, 0x83, (v.length + 2) / 256, (v.length + 2) % 256, 0x06] ++ v.take 251,
          v.drop 251) := by
    rw [show (256 : Int) = ((256 : Nat) : Int) from rfl, stream_socket_Recv]
    rfl
  have hcast : static_cast_int (max v.length 256) = ((max v.length 256 : Nat) : Int) :=
    static_cast_int_of_lt _ (by omega)
  have hrecv2 : stream_socket.Recv (v.drop 251) (static_cast_int (max v.length 256))
      = (v.drop 251, []) := by
    have ht : (v.drop 251).take (max v.length 256) = v.drop 251 :=
      List.take_of_length_le (by rw [List.length_drop]; omega)
    have hd : (v.drop 251).drop (max v.length 256) = [] :=
      List.drop_of_length_le (by rw [List.length_drop]; omega)
    rw [hcast, stream_socket_Recv, ht, hd]
  have hjoin : [0x00, 0x83, (v.length + 2) / 256, (v.length + 2) % 256, 0x06] ++ v.take 251
      ++ v.drop 251
      = [0x00, 0x83, (v.length + 2) / 256, (v.length + 2) % 256, 0x06] ++ v := by
    rw [List.append_assoc, List.take_append_drop]
  have r4 : CSocketBuffer.Read stream_socket
      ⟨5, [0x00, 0x83, (v.length + 2) / 256, (v.length + 2) % 256, 0x06] ++ v.take 251,
        v.drop 251⟩ v.length
      = { ok := false, dst := [],
          self := ⟨5, [0x00, 0x83, (v.length + 2) / 256, (v.length + 2) % 256, 0x06] ++ v,
            []⟩ } := by
    rw [Read_eq]
    dsimp only
    have hmod : (5 + v.length) % SIZE_MOD = 5 + v.length :=
      Nat.mod_eq_of_lt (by unfold SIZE_MOD; omega)
    rw [hrecv2, hjoin, hmod, if_pos (Or.inr (by simp; omega)), if_pos (Or.inr (by simp; omega))]
  rw [main_of_chunk native stream_socket _ 0x00 0x83 ((v.length + 2) / 256)
    ((v.length + 2) % 256) 0x06 (v.take 251) (by rw [hrecv]; rfl), hrecv,
    main_dataSize_frame native v.length (by omega), r4]
  simp

/-! ## Lemmas on `bt::encode_array` -/

/-- The copy loop of `encode_array` after `k` rounds: the first `k` bytes of `data` stand after
the initializers, the rest is still zero. -/
theorem copy_loop_rounds (pre data : List Nat) (n k : Nat) (hk : k ≤ n)
    (hn : n ≤ data.length) :
    (List.range' pre.length k).foldl (fun dst i => dst.set i (data.getD (i - pre.length) 0))
        (pre ++ List.replicate (n + 1) 0)
      = pre ++ data.take k ++ List.replicate (n + 1 - k) 0 := by
  induction k with
  | zero => simp
  | succ k ih =>
    have hlt : k < data.length := by omega
    have hrep : List.replicate (n + 1 - k) 0 = 0 :: List.replicate (n + 1 - (k + 1)) (0 : Nat) := by
      rw [show n + 1 - k = (n + 1 - (k + 1)) + 1 by omega, List.replicate_succ]
    have hget : data.getD k 0 = data[k] := by
      rw [List.getD_eq_getElem?_getD, List.getElem?_eq_getElem hlt]
      rfl
    have htake : data.take (k + 1) = data.take k ++ [data[k]] := by
      rw [List.take_succ, List.getElem?_eq_getElem hlt]
      rfl
    rw [List.range'_concat, List.foldl_append, ih (by omega), hrep]
    simp only [List.foldl_cons, List.foldl_nil, Nat.one_mul, Nat.add_sub_cancel_left, hget,
      htake]
    have hidx : pre.length + k - (pre ++ data.take k).length = 0 := by
      rw [List.length_append, List.length_take]
      omega
    rw [List.set_append_right _ _ (by rw [List.length_append, List.length_take]; omega), hidx,
      List.set_cons_zero]
    simp only [List.append_assoc, List.singleton_append]

/-- The compile-time encoder on a little-endian host for a payload of at most 65525 bytes:
magic, size (high byte, low byte), five zero bytes, the payload, one zero byte. -/
theorem encode_array_frame (payload : List Nat) (h : payload.length + 10 ≤ 65535) :
    bt.encode_array Endian.little payload.length payload
      = some ([0x00, 0x83] ++ [(payload.length + 6) / 256, (payload.length + 6) % 256]
            ++ [0, 0, 0, 0, 0] ++ payload ++ [0x00]) := by
  have hfit : bt.data_fits_v payload.length = true := by
    simp [bt.data_fits_v, UINT16_MAX]; omega
  have hsize : bt.message_size_v payload.length = payload.length + 10 := by
    unfold bt.message_size_v; omega
  have h16 : (payload.length + 6) % 65536 = payload.length + 6 := Nat.mod_eq_of_lt (by omega)
  have hhi : (payload.length + 6) / 256 % 256 = (payload.length + 6) / 256 :=
    Nat.mod_eq_of_lt (by omega)
  have hloop := copy_loop_rounds
    [0x00, 0x83, (payload.length + 6) / 256, (payload.length + 6) % 256, 0, 0, 0, 0, 0]
    payload payload.length payload.length (Nat.le_refl _) (Nat.le_refl _)
  unfold bt.encode_array
  rw [hfit, hsize, h16]
  simp only [bt.static_cast_char, Nat.shiftRight_eq_div_pow, hhi]
  simp at hloop ⊢
  exact hloop

/-- An accepted payload is framed by nine header bytes before it and one zero byte after
it. -/
theorem encode_ok_shape (native : Endian) (payload : List Nat)
    (hok : (bt.encode native payload).1 = bt.EResult.Ok) :
    ∃ hi lo, (bt.encode native payload).2
      = [0x00, 0x83, hi, lo, 0, 0, 0, 0, 0] ++ payload ++ [0x00] := by
  unfold bt.encode at hok ⊢
  by_cases h : (payload.length + 6) % SIZE_MOD > UINT16_MAX
  · simp [h] at hok
  · simp only [if_neg h]
    exact ⟨_, _, memcpy_append_zeros [0x00, 0x83, _, _, 0, 0, 0, 0, 0] payload⟩

/-- On a little-endian host the compile-time encoder and the runtime encoder produce the same
bytes for a payload of at most 65525 bytes. -/
theorem encode_array_eq_encode (payload : List Nat) (h : payload.length + 10 ≤ 65535) :
    bt.encode_array Endian.little payload.length payload
      = some (bt.encode Endian.little payload).2 := by
  rw [encode_array_frame payload h, encode_frame Endian.little payload (by omega)]

/-- For the sizes 65526 to 65529, which `data_fits_v` admits, `message_size_v` has wrapped to
0..3 and `encode_array` has no instance. -/
theorem encode_array_wrapped (native : Endian) (N : Nat) (data : List Nat)
    (h1 : 65526 ≤ N) (h2 : N ≤ 65529) :
    bt.data_fits_v N = true ∧ bt.message_size_v N = N - 65526
      ∧ bt.encode_array native N data = none := by
  have hfit : bt.data_fits_v N = true := by
    simp [bt.data_fits_v, UINT16_MAX]; omega
  have hsize : bt.message_size_v N = N - 65526 := by
    unfold bt.message_size_v; omega
  refine ⟨hfit, hsize, ?_⟩
  unfold bt.encode_array
  simp only [hfit, hsize, List.length_cons, List.length_nil]
  rw [if_neg (by decide), if_pos (by omega)]

/-! ## Lemmas on successive reads -/

/-- The accumulator before a `Read` is a prefix of the accumulator after it. -/
theorem Read_buffer_prefix {σ : Type} (sock : ISocket σ) (self : CSocketBuffer σ) (n : Nat) :
    self.mBuffer <+: (self.Read sock n).self.mBuffer := by
  rw [Read_eq]
  split_ifs <;> simp [CSocketBuffer.copy_out]

/-- A `Read` keeps the cursor within the accumulator. -/
theorem Read_cursor_le {σ : Type} (sock : ISocket σ) (self : CSocketBuffer σ) (n : Nat)
    (hinv : self.mCursor ≤ self.mBuffer.length) (hsz : self.mCursor + n < SIZE_MOD) :
    (self.Read sock n).self.mCursor ≤ (self.Read sock n).self.mBuffer.length := by
  rw [Read_eq, Nat.mod_eq_of_lt hsz]
  split_ifs with h1 h2
  · simp only [List.length_append]
    omega
  · simp only [CSocketBuffer.copy_out]
    omega
  · simp only [CSocketBuffer.copy_out]
    omega

/-- A `Read` that returns `true` has copied the `n` accumulator bytes from the old cursor on
and has advanced the cursor by `n`. -/
theorem Read_ok_dst {σ : Type} (sock : ISocket σ) (self : CSocketBuffer σ) (n : Nat)
    (hsz : self.mCursor + n < SIZE_MOD) (hok : (self.Read sock n).ok = true) :
    (self.Read sock n).dst = ((self.Read sock n).self.mBuffer.drop self.mCursor).take n
      ∧ self.mCursor + n ≤ (self.Read sock n).self.mBuffer.length
      ∧ (self.Read sock n).self.mCursor = self.mCursor + n := by
  rw [Read_eq, Nat.mod_eq_of_lt hsz] at hok ⊢
  split_ifs at hok ⊢ with h1 h2
  · simp only [CSocketBuffer.copy_out, true_and, and_true]
    omega
  · simp only [CSocketBuffer.copy_out, true_and, and_true]
    omega

/-- A `Read` that returns `false` leaves the cursor where it was and copies nothing. -/
theorem Read_fail_cursor {σ : Type} (sock : ISocket σ) (self : CSocketBuffer σ) (n : Nat)
    (hok : (self.Read sock n).ok = false) :
    (self.Read sock n).self.mCursor = self.mCursor ∧ (self.Read sock n).dst = [] := by
  rw [Read_eq] at hok ⊢
  split_ifs at hok ⊢ with h1 h2
  · simp
  · simp [CSocketBuffer.copy_out] at hok
  · simp [CSocketBuffer.copy_out] at hok

/-! ## Lemmas on reading a finite stream

The state of the socket is the part of the stream not yet received; a socket delivers the
stream when every `Recv`, whatever it hands back, leaves the rest of what it held. -/

/-- The decoded `dataSize` is a `uint16_t`. -/
theorem main_dataSize_lt (native : Endian) (dataSizeBytes : List Nat) :
    main_dataSize native dataSizeBytes < 65536 := by
  unfold main_dataSize
  exact Nat.mod_lt _ (by decide)

/-- The socket `stream_socket` delivers its stream. -/
theorem stream_socket_delivers (rest : List Nat) (length : Int) :
    (stream_socket.Recv rest length).1 ++ (stream_socket.Recv rest length).2 = rest :=
  List.take_append_drop _ _

/-- The socket `chunk_socket` delivers its stream. -/
theorem chunk_socket_delivers (chunk : Nat) (rest : List Nat) (length : Int) :
    ((chunk_socket chunk).Recv rest length).1 ++ ((chunk_socket chunk).Recv rest length).2
      = rest :=
  List.take_append_drop _ _

/-- On a socket that delivers its stream, the accumulator followed by the part not yet
received stays the same over a `Read`. -/
theorem Read_stream_inv (sock : ISocket (List Nat))
    (hdel : ∀ rest length, (sock.Recv rest length).1 ++ (sock.Recv rest length).2 = rest)
    (self : CSocketBuffer (List Nat)) (n : Nat) :
    (self.Read sock n).self.mBuffer ++ (self.Read sock n).self.mSocket
      = self.mBuffer ++ self.mSocket := by
  rw [Read_eq]
  split_ifs <;> simp [CSocketBuffer.copy_out, hdel]

/-- On a socket that delivers its stream, a `Read` that returns `true` has copied the `n`
stream bytes from the cursor on. -/
theorem Read_ok_stream (sock : ISocket (List Nat))
    (hdel : ∀ rest length, (sock.Recv rest length).1 ++ (sock.Recv rest length).2 = rest)
    (self : CSocketBuffer (List Nat)) (n : Nat) (hsz : self.mCursor + n < SIZE_MOD)
    (hok : (self.Read sock n).ok = true) :
    (self.Read sock n).dst = ((self.mBuffer ++ self.mSocket).drop self.mCursor).take n
      ∧ self.mCursor + n ≤ (self.mBuffer ++ self.mSocket).length
      ∧ (self.Read sock n).self.mCursor = self.mCursor + n := by
  obtain ⟨hd, hl, hc⟩ := Read_ok_dst sock self n hsz hok
  have hinv := Read_stream_inv sock hdel self n
  refine ⟨?_, ?_, hc⟩
  · rw [hd, ← hinv, List.drop_append_of_le_length (by omega),
      List.take_append_of_le_length (by rw [List.length_drop]; omega)]
  · rw [← hinv, List.length_append]
    omega

/-- The decoder on a stream that starts with the magic, two size bytes and a tag, however the
socket cuts the stream: either a read of the header fails, or the three reads of the header
succeed and leave a reader with the cursor at 5, on which `main` dispatches on the tag. -/
theorem main_of_stream (native : Endian) (sock : ISocket (List Nat))
    (hdel : ∀ rest length, (sock.Recv rest length).1 ++ (sock.Recv rest length).2 = rest)
    (a2 a3 a4 : Nat) (rest : List Nat) :
    (main native sock (0x00 :: 0x83 :: a2 :: a3 :: a4 :: rest)).result
        = Except.error DecodeError.UnexpectedEof
      ∨ ∃ r : CSocketBuffer (List Nat),
          r.mCursor = 5
          ∧ r.mBuffer ++ r.mSocket = 0x00 :: 0x83 :: a2 :: a3 :: a4 :: rest
          ∧ main native sock (0x00 :: 0x83 :: a2 :: a3 :: a4 :: rest)
            = if a4 = 0x06 then
                if (r.Read sock (main_dataSize native [a2, a3])).ok = false then
                  { result := Except.error DecodeError.UnexpectedEof,
                    socketBuffer := (r.Read sock (main_dataSize native [a2, a3])).self }
                else
                  { result := Except.ok
                      (Value.String (r.Read sock (main_dataSize native [a2, a3])).dst),
                    socketBuffer := (r.Read sock (main_dataSize native [a2, a3])).self }
              else if a4 = 0x2A then
                if (r.Read sock 4).ok = false then
                  { result := Except.error DecodeError.UnexpectedEof,
                    socketBuffer := (r.Read sock 4).self }
                else
                  { result := Except.ok (Value.Float32 (main_float native (r.Read sock 4).dst)),
                    socketBuffer := (r.Read sock 4).self }
              else if a4 = 0x00 then
                { result := Except.ok Value.Null, socketBuffer := r }
              else
                { result := Except.error (DecodeError.UnsupportedType a4),
                  socketBuffer := r } := by
  unfold main
  dsimp only
  -- the read of the magic
  have I1 := Read_stream_inv sock hdel ⟨0, [], 0x00 :: 0x83 :: a2 :: a3 :: a4 :: rest⟩ 2
  have f1 := Read_ok_stream sock hdel ⟨0, [], 0x00 :: 0x83 :: a2 :: a3 :: a4 :: rest⟩ 2
    (by simp [SIZE_MOD])
  generalize CSocketBuffer.Read sock ⟨0, [], 0x00 :: 0x83 :: a2 :: a3 :: a4 :: rest⟩ 2 = R1
    at I1 f1 ⊢
  by_cases e1 : R1.ok = false
  · left
    rw [if_pos e1]
  rw [if_neg e1]
  obtain ⟨d1, -, c1⟩ := f1 (by simpa using e1)
  have d1' : R1.dst = [0x00, 0x83] := by rw [d1]; rfl
  have c1' : R1.self.mCursor = 2 := by rw [c1]
  rw [d1', if_neg (by decide)]
  -- the read of the size
  have I2 := Read_stream_inv sock hdel R1.self 2
  have f2 := Read_ok_stream sock hdel R1.self 2 (by rw [c1']; decide)
  rw [I1] at I2
  rw [c1', I1] at f2
  generalize CSocketBuffer.Read sock R1.self 2 = R2 at I2 f2 ⊢
  by_cases e2 : R2.ok = false
  · left
    rw [if_pos e2]
  rw [if_neg e2]
  obtain ⟨d2, -, c2⟩ := f2 (by simpa using e2)
  have d2' : R2.dst = [a2, a3] := by rw [d2]; rfl
  rw [d2']
  -- the read of the tag
  have I3 := Read_stream_inv sock hdel R2.self 1
  have f3 := Read_ok_stream sock hdel R2.self 1 (by rw [c2]; decide)
  rw [I2] at I3
  rw [c2, I2] at f3
  generalize CSocketBuffer.Read sock R2.self 1 = R3 at I3 f3 ⊢
  by_cases e3 : R3.ok = false
  · left
    rw [if_pos e3]
  rw [if_neg e3]
  obtain ⟨d3, -, c3⟩ := f3 (by simpa using e3)
  have d3' : R3.dst = [a4] := by rw [d3]; rfl
  rw [d3']
  exact Or.inr ⟨R3.self, c3, by simpa using I3, rfl⟩

/-- A float frame whose first nine bytes come with the first transport call decodes to the
float made of the four bytes after the tag, with the cursor at 9. -/
theorem main_float_of_chunk {σ : Type} (native : Endian) (sock : ISocket σ) (s : σ)
    (s0 s1 : Nat) (rest : List Nat) (hrest : 4 ≤ rest.length)
    (h : (sock.Recv s 256).1 = [0x00, 0x83, s0, s1, 0x2A] ++ rest) :
    main native sock s
      = { result := Except.ok (Value.Float32 (main_float native (rest.take 4))),
          socketBuffer := ⟨9, (sock.Recv s 256).1, (sock.Recv s 256).2⟩ } := by
  have hlen : (sock.Recv s 256).1.length = rest.length + 5 := by rw [h]; simp
  have r4 := Read_buffered sock 5 (sock.Recv s 256).1 (sock.Recv s 256).2 4
    (by omega) (by omega) (by decide)
  rw [main_of_chunk native sock s 0x00 0x83 s0 s1 0x2A rest h, r4]
  simp [h]

/-! ## Lemmas on string frames with any size bytes -/

/-- A string frame handed over by `stream_socket` with more bytes after the tag than the
decoded `dataSize`: the decoder yields the first `dataSize` of them, whatever the size bytes
are. -/
theorem main_string_of_stream_socket (native : Endian) (s0 s1 : Nat) (rest : List Nat)
    (h : main_dataSize native [s0, s1] < rest.length) :
    (main native stream_socket ([0x00, 0x83, s0, s1, 0x06] ++ rest)).result
        = Except.ok (Value.String (rest.take (main_dataSize native [s0, s1])))
      ∧ (main native stream_socket ([0x00, 0x83, s0, s1, 0x06] ++ rest)).socketBuffer.mCursor
        = 5 + main_dataSize native [s0, s1] := by
  have hL := main_dataSize_lt native [s0, s1]
  generalize hLdef : main_dataSize native [s0, s1] = L at h hL ⊢
  have hrecv : stream_socket.Recv ([0x00, 0x83, s0, s1, 0x06] ++ rest) 256
      = ([0x00, 0x83, s0, s1, 0x06] ++ rest.take 251, rest.drop 251) := rfl
  have hcast : static_cast_int (max L 256) = ((max L 256 : Nat) : Int) :=
    static_cast_int_of_lt _ (by omega)
  have hok : (CSocketBuffer.Read stream_socket
      ⟨5, [0x00, 0x83, s0, s1, 0x06] ++ rest.take 251, rest.drop 251⟩ L).ok = true := by
    have hmod : (5 + L) % SIZE_MOD = 5 + L := Nat.mod_eq_of_lt (by unfold SIZE_MOD; omega)
    rw [Read_eq]
    dsimp only
    rw [hcast, stream_socket_Recv, hmod]
    simp only [List.length_append, List.length_cons, List.length_nil, List.length_take,
      List.length_drop]
    split_ifs with h1 h2
    · omega
    · rfl
    · rfl
  obtain ⟨hd, -, hcur⟩ := Read_ok_stream stream_socket stream_socket_delivers
    ⟨5, [0x00, 0x83, s0, s1, 0x06] ++ rest.take 251, rest.drop 251⟩ L
    (by show 5 + L < SIZE_MOD; unfold SIZE_MOD; omega) hok
  have hd' : (CSocketBuffer.Read stream_socket
      ⟨5, [0x00, 0x83, s0, s1, 0x06] ++ rest.take 251, rest.drop 251⟩ L).dst
      = rest.take L := by
    rw [hd]
    show ((rest.take 251 ++ rest.drop 251)).take L = rest.take L
    rw [List.take_append_drop]
  rw [main_of_chunk native stream_socket _ 0x00 0x83 s0 s1 0x06 (rest.take 251)
    (by rw [hrecv]; rfl), hrecv, hLdef]
  dsimp only
  rw [if_neg (by decide), if_pos rfl, if_neg (by rw [hok]; decide), hd', hcur]
  exact ⟨rfl, rfl⟩

/-- A string frame followed by fewer bytes than the decoded `dataSize`, on a socket that
delivers the stream however cut: `Unexpected eof`. -/
theorem main_string_eof_of_short (native : Endian) (sock : ISocket (List Nat))
    (hdel : ∀ rest length, (sock.Recv rest length).1 ++ (sock.Recv rest length).2 = rest)
    (s0 s1 : Nat) (rest : List Nat) (h : rest.length < main_dataSize native [s0, s1]) :
    (main native sock ([0x00, 0x83, s0, s1, 0x06] ++ rest)).result
      = Except.error DecodeError.UnexpectedEof := by
  rcases main_of_stream native sock hdel s0 s1 0x06 rest with hE | ⟨r, hc, hI, hm⟩
  · exact hE
  · have hL := main_dataSize_lt native [s0, s1]
    have hm' : main native sock ([0x00, 0x83, s0, s1, 0x06] ++ rest) = _ := hm
    rw [hm', if_pos rfl]
    by_cases e : (r.Read sock (main_dataSize native [s0, s1])).ok = false
    · rw [if_pos e]
    · obtain ⟨-, hl, -⟩ := Read_ok_stream sock hdel r (main_dataSize native [s0, s1])
        (by rw [hc]; unfold SIZE_MOD; omega) (by simpa using e)
      rw [hc, hI] at hl
      simp only [List.length_cons] at hl
      omega

/-! ## Lemmas on `Read` with the returned `size_t` -/

/-- When `Recv` returns the number of bytes it stored, no more than were asked for, and the
accumulator can grow by that much, `ReadC` returns and does what `Read` does on the bytes. -/
theorem ReadC_eq_Read {σ : Type} (sock : ISocketC σ) (self : CSocketBuffer σ) (n : Nat)
    (hfit : self.mBuffer.length + max n 256 ≤ PTRDIFF_MAX)
    (hcount : (sock.Recv self.mSocket (static_cast_int (max n 256))).1
      = (sock.Recv self.mSocket (static_cast_int (max n 256))).2.1.length)
    (hle : (sock.Recv self.mSocket (static_cast_int (max n 256))).1 ≤ max n 256) :
    self.ReadC sock n = some (self.Read sock.bytes n) := by
  have h1 : (self.mBuffer.length + max n 256) % SIZE_MOD = self.mBuffer.length + max n 256 :=
    Nat.mod_eq_of_lt (by unfold SIZE_MOD; unfold PTRDIFF_MAX at hfit; omega)
  have h2 : (self.mBuffer.length
        + (sock.Recv self.mSocket (static_cast_int (max n 256))).1) % SIZE_MOD
      = self.mBuffer.length
        + (sock.Recv self.mSocket (static_cast_int (max n 256))).2.1.length := by
    rw [← hcount]
    exact Nat.mod_eq_of_lt (by unfold SIZE_MOD; unfold PTRDIFF_MAX at hfit; omega)
  unfold CSocketBuffer.ReadC CSocketBuffer.Read
  by_cases hc : self.mCursor = self.mBuffer.length
      ∨ (self.mCursor + n) % SIZE_MOD > self.mBuffer.length
  · simp only [if_pos hc, h1, h2, ISocketC.bytes]
    rw [if_neg (by omega), if_neg (by rw [← hcount]; omega)]
    split_ifs <;> rfl
  · simp only [if_neg hc]

/-! ## The frame encoder -/

/-- C1: for every payload with `length + 6 ≤ 65535`, `bt::encode` returns `EResult::Ok` and
exactly the bytes `0x00, 0x83`, the high and the low byte of `length + 6`, five zero bytes, the
payload and one zero byte, on either host byte order; the empty payload encodes to
`00 83 00 06 00 00 00 00 00 00`. -/
theorem encode_ok_bytes (native : Endian) (payload : List Nat)
    (h : payload.length + 6 ≤ 65535) :
    bt.encode native payload
        = (bt.EResult.Ok,
            [0x00, 0x83] ++ [(payload.length + 6) / 256, (payload.length + 6) % 256]
              ++ [0, 0, 0, 0, 0] ++ payload ++ [0x00])
      ∧ bt.encode native []
        = (bt.EResult.Ok, [0x00, 0x83, 0x00, 0x06, 0, 0, 0, 0, 0, 0x00]) :=
  ⟨encode_frame native payload h, encode_frame native [] (by decide)⟩

-- The payload `?ping` on a little-endian host.
theorem encode_ok_bytes_witness :
    ([0x3F, 0x70, 0x69, 0x6E, 0x67] : List Nat).length + 6 ≤ 65535
      ∧ (bt.encode Endian.little [0x3F, 0x70, 0x69, 0x6E, 0x67]
          = (bt.EResult.Ok,
              [0x00, 0x83, 0x00, 0x0B, 0, 0, 0, 0, 0, 0x3F, 0x70, 0x69, 0x6E, 0x67, 0x00])
        ∧ bt.encode Endian.little []
          = (bt.EResult.Ok, [0x00, 0x83, 0x00, 0x06, 0, 0, 0, 0, 0, 0x00])) :=
  ⟨by decide, encode_ok_bytes Endian.little [0x3F, 0x70, 0x69, 0x6E, 0x67] (by decide)⟩

/-- C2: `bt::encode` returns `EResult::DataTooLong` exactly when `length + 6 > 65535`, and then
the returned vector is empty; a payload of 65529 bytes is encoded with the size bytes
`0xFF, 0xFF`, a payload of 65530 bytes is refused.  The payload is any array a C++ program can
hold (at most `PTRDIFF_MAX` bytes), so that the `size_t` sum `length + 6` does not wrap. -/
theorem encode_DataTooLong_iff (native : Endian) (payload : List Nat)
    (hobj : payload.length ≤ PTRDIFF_MAX) :
    ((bt.encode native payload).1 = bt.EResult.DataTooLong ↔ payload.length + 6 > 65535)
      ∧ ((bt.encode native payload).1 = bt.EResult.DataTooLong
          → (bt.encode native payload).2 = [])
      ∧ (payload.length = 65529
          → (bt.encode native payload).1 = bt.EResult.Ok
            ∧ ((bt.encode native payload).2.drop 2).take 2 = [0xFF, 0xFF])
      ∧ (payload.length = 65530 → (bt.encode native payload).1 = bt.EResult.DataTooLong) := by
  by_cases h : payload.length + 6 > 65535
  · rw [encode_too_long native payload hobj h]
    refine ⟨by simp [h], by simp, ?_, by simp⟩
    intro h9
    omega
  · rw [encode_frame native payload (by omega)]
    refine ⟨by simp [h], by simp, ?_, ?_⟩
    · intro h9
      simp [h9]
    · intro h0
      omega

-- The payload `?p` on a big-endian host.
theorem encode_DataTooLong_iff_witness :
    ([0x3F, 0x70] : List Nat).length ≤ PTRDIFF_MAX
      ∧ (((bt.encode Endian.big [0x3F, 0x70]).1 = bt.EResult.DataTooLong
            ↔ ([0x3F, 0x70] : List Nat).length + 6 > 65535)
        ∧ ((bt.encode Endian.big [0x3F, 0x70]).1 = bt.EResult.DataTooLong
            → (bt.encode Endian.big [0x3F, 0x70]).2 = [])
        ∧ (([0x3F, 0x70] : List Nat).length = 65529
            → (bt.encode Endian.big [0x3F, 0x70]).1 = bt.EResult.Ok
              ∧ ((bt.encode Endian.big [0x3F, 0x70]).2.drop 2).take 2 = [0xFF, 0xFF])
        ∧ (([0x3F, 0x70] : List Nat).length = 65530
            → (bt.encode Endian.big [0x3F, 0x70]).1 = bt.EResult.DataTooLong)) :=
  ⟨by decide, encode_DataTooLong_iff Endian.big [0x3F, 0x70] (by decide)⟩

/-! ## The buffered reader -/

/-- C3 (the code at the failing input): a fresh reader is asked for 2 bytes and the single
transport call brings exactly 2 bytes; `Read` returns `false`, copies nothing and leaves the
cursor at 0 with both bytes unread in the accumulator. -/
theorem Read_exact_fill_returns_false :
    CSocketBuffer.Read stream_socket { mCursor := 0, mBuffer := [], mSocket := [0x00, 0x83] } 2
      = { ok := false, dst := [],
          self := { mCursor := 0, mBuffer := [0x00, 0x83], mSocket := [] } } := by
  set_option maxRecDepth 100000 in decide

/-- C4 (the code at the failing input): the frame of the 252-byte string `AA...A`, 257 bytes
in all, handed over by the transport as far as each request allows.  The first `Recv` brings
256 bytes; the `Read` of the 252 value bytes calls `Recv` again, which brings the last byte,
and then fails because the unread bytes number exactly 252: `main` prints `Unexpected eof`,
on either host byte order. -/
theorem main_string_257_bytes :
    (main Endian.little stream_socket
        ([0x00, 0x83, 0x00, 0xFE, 0x06] ++ List.replicate 252 0x41)).result
        = Except.error DecodeError.UnexpectedEof
      ∧ (main Endian.big stream_socket
        ([0x00, 0x83, 0x00, 0xFE, 0x06] ++ List.replicate 252 0x41)).result
        = Except.error DecodeError.UnexpectedEof := by
  set_option maxRecDepth 100000 in decide

/-! ## The decoder -/

/-- C5 (counterexample): the frame `00 83 00 02 00` decodes to `Null` when the transport
hands it over whole and to `Unexpected eof` when it hands it over byte by byte. -/
theorem chunked_delivery_differs :
    (main Endian.little (chunk_socket 1) [0x00, 0x83, 0x00, 0x02, 0x00]).result
      ≠ (main Endian.little stream_socket [0x00, 0x83, 0x00, 0x02, 0x00]).result := by
  set_option maxRecDepth 100000 in decide

/-- C5 (amended): with a transport that delivers one byte per `Recv`, the decoder fails with
`Unexpected eof` on every stream, because the `Read` of the magic makes a single `Recv`; so
its result agrees with the result of a single-chunk delivery exactly when that one is
`Unexpected eof` too. -/
theorem main_one_byte_chunks_eof (native : Endian) (frame : List Nat) :
    (main native (chunk_socket 1) frame).result = Except.error DecodeError.UnexpectedEof
      ∧ ((main native (chunk_socket 1) frame).result = (main native stream_socket frame).result
          ↔ (main native stream_socket frame).result
              = Except.error DecodeError.UnexpectedEof) := by
  have hrecv : ((chunk_socket 1).Recv frame 256).1.length ≤ 2 := by
    show (frame.take (min 1 (256 : Int).toNat)).length ≤ 2
    rw [List.length_take]
    have : min 1 (256 : Int).toNat = 1 := by decide
    omega
  have r1 := Read_fresh (chunk_socket 1) frame 2 (by decide)
  rw [static_cast_int_256 2 (by decide), if_pos hrecv] at r1
  have hres : (main native (chunk_socket 1) frame).result
      = Except.error DecodeError.UnexpectedEof := by
    unfold main
    simp only [r1]
    rfl
  refine ⟨hres, ?_⟩
  rw [hres]
  exact eq_comm

/-- C6 (counterexample): the input `00 83 00 06 2A 40 60 00 00` does not decode to the float
with bit pattern `0x40600000` (3.5), on either host byte order; it decodes to the float with
bit pattern `0x00006040`. -/
theorem main_float_not_big_endian :
    (main Endian.little stream_socket
        [0x00, 0x83, 0x00, 0x06, 0x2A, 0x40, 0x60, 0x00, 0x00]).result
        ≠ Except.ok (Value.Float32 0x40600000)
      ∧ (main Endian.big stream_socket
        [0x00, 0x83, 0x00, 0x06, 0x2A, 0x40, 0x60, 0x00, 0x00]).result
        ≠ Except.ok (Value.Float32 0x40600000)
      ∧ (main Endian.little stream_socket
        [0x00, 0x83, 0x00, 0x06, 0x2A, 0x40, 0x60, 0x00, 0x00]).result
        = Except.ok (Value.Float32 0x00006040) := by
  set_option maxRecDepth 100000 in decide

/-- C6 (amended): for every response whose first transport read brings the magic, two size
bytes, the tag `0x2A` and four bytes `b0 b1 b2 b3`, the decoded float has the bit pattern that
is the little-endian reading of the four bytes (`b0` least significant), on either host byte
order, and the cursor ends at 9; the input `00 83 00 06 2A 00 00 60 40` decodes to the float
with bit pattern `0x40600000` (3.5). -/
theorem main_float_little_endian {σ : Type} (native : Endian) (sock : ISocket σ) (s : σ)
    (s0 s1 b0 b1 b2 b3 : Nat) (rest : List Nat)
    (h : (sock.Recv s 256).1 = [0x00, 0x83, s0, s1, 0x2A, b0, b1, b2, b3] ++ rest) :
    main native sock s
        = { result := Except.ok (Value.Float32 (b0 + 256 * b1 + 65536 * b2 + 16777216 * b3)),
            socketBuffer := ⟨9, (sock.Recv s 256).1, (sock.Recv s 256).2⟩ }
      ∧ (main native stream_socket [0x00, 0x83, 0x00, 0x06, 0x2A, 0x00, 0x00, 0x60, 0x40]).result
        = Except.ok (Value.Float32 0x40600000) := by
  constructor
  · have hlen : (sock.Recv s 256).1.length = rest.length + 9 := by rw [h]; simp
    have r4 := Read_buffered sock 5 (sock.Recv s 256).1 (sock.Recv s 256).2 4
      (by omega) (by omega) (by decide)
    rw [main_of_chunk native sock s 0x00 0x83 s0 s1 0x2A (b0 :: b1 :: b2 :: b3 :: rest) h, r4]
    cases native <;> simp [h, main_float, object_value] <;> omega
  · cases native <;> set_option maxRecDepth 100000 in decide

-- The wire bytes `00 00 60 40` of 3.5, received whole from a finite stream.
theorem main_float_little_endian_witness :
    (stream_socket.Recv [0x00, 0x83, 0x00, 0x06, 0x2A, 0x00, 0x00, 0x60, 0x40] 256).1
        = [0x00, 0x83, 0x00, 0x06, 0x2A, 0x00, 0x00, 0x60, 0x40] ++ []
      ∧ (main Endian.little stream_socket [0x00, 0x83, 0x00, 0x06, 0x2A, 0x00, 0x00, 0x60, 0x40]
          = { result := Except.ok
                (Value.Float32 (0x00 + 256 * 0x00 + 65536 * 0x60 + 16777216 * 0x40)),
              socketBuffer :=
                ⟨9, (stream_socket.Recv
                      [0x00, 0x83, 0x00, 0x06, 0x2A, 0x00, 0x00, 0x60, 0x40] 256).1,
                  (stream_socket.Recv
                      [0x00, 0x83, 0x00, 0x06, 0x2A, 0x00, 0x00, 0x60, 0x40] 256).2⟩ }
        ∧ (main Endian.little stream_socket
            [0x00, 0x83, 0x00, 0x06, 0x2A, 0x00, 0x00, 0x60, 0x40]).result
          = Except.ok (Value.Float32 0x40600000)) :=
  ⟨by decide,
    main_float_little_endian Endian.little stream_socket
      [0x00, 0x83, 0x00, 0x06, 0x2A, 0x00, 0x00, 0x60, 0x40] 0x00 0x06 0x00 0x00 0x60 0x40 []
      (by decide)⟩

/-- C7 (the code at the failing input): the stream consists of the two bytes `FF D8`, which are
not the magic, and the transport hands both over.  The `Read` of the magic fails because the
unread bytes number exactly 2: `main` prints `Unexpected eof`, not `Invalid magic`, and the
cursor is still 0, on either host byte order. -/
theorem main_two_byte_stream :
    main Endian.little stream_socket [0xFF, 0xD8]
        = { result := Except.error DecodeError.UnexpectedEof,
            socketBuffer := { mCursor := 0, mBuffer := [0xFF, 0xD8], mSocket := [] } }
      ∧ main Endian.big stream_socket [0xFF, 0xD8]
        = { result := Except.error DecodeError.UnexpectedEof,
            socketBuffer := { mCursor := 0, mBuffer := [0xFF, 0xD8], mSocket := [] } } := by
  set_option maxRecDepth 100000 in decide

/-- C8 (counterexample): on the stream `00 83 00 02 06` followed by end of stream the decoder
does not yield the empty string; it prints `Unexpected eof`, on either host byte order. -/
theorem empty_string_frame_at_eof :
    (main Endian.little stream_socket [0x00, 0x83, 0x00, 0x02, 0x06]).result
        ≠ Except.ok (Value.String [])
      ∧ (main Endian.little stream_socket [0x00, 0x83, 0x00, 0x02, 0x06]).result
        = Except.error DecodeError.UnexpectedEof
      ∧ (main Endian.big stream_socket [0x00, 0x83, 0x00, 0x02, 0x06]).result
        = Except.error DecodeError.UnexpectedEof := by
  set_option maxRecDepth 100000 in decide

/-- C8 (amended): when the first transport read brings the frame `00 83 00 02 06` and at least
one byte more, the decoder yields the empty string with the cursor at 5 and without a second
transport call, on either host byte order; when the frame is followed by end of stream, the
decoder fails with `Unexpected eof`. -/
theorem main_empty_string {σ : Type} (native : Endian) (sock : ISocket σ) (s : σ)
    (rest : List Nat)
    (h : (sock.Recv s 256).1 = [0x00, 0x83, 0x00, 0x02, 0x06] ++ rest) (hrest : rest ≠ []) :
    main native sock s
        = { result := Except.ok (Value.String []),
            socketBuffer := ⟨5, (sock.Recv s 256).1, (sock.Recv s 256).2⟩ }
      ∧ (main native stream_socket [0x00, 0x83, 0x00, 0x02, 0x06]).result
        = Except.error DecodeError.UnexpectedEof := by
  constructor
  · have hpos : 0 < rest.length := List.length_pos.mpr hrest
    have hlen : (sock.Recv s 256).1.length = rest.length + 5 := by rw [h]; simp
    have hsize : main_dataSize native [0x00, 0x02] = 0 := by cases native <;> decide
    have r4 := Read_buffered sock 5 (sock.Recv s 256).1 (sock.Recv s 256).2 0
      (by omega) (by omega) (by decide)
    rw [main_of_chunk native sock s 0x00 0x83 0x00 0x02 0x06 rest h, hsize, r4]
    simp
  · cases native <;> set_option maxRecDepth 100000 in decide

-- The empty-string frame followed by one zero byte.
theorem main_empty_string_witness :
    (stream_socket.Recv [0x00, 0x83, 0x00, 0x02, 0x06, 0x00] 256).1
        = [0x00, 0x83, 0x00, 0x02, 0x06] ++ [0x00]
      ∧ ([0x00] : List Nat) ≠ []
      ∧ main Endian.little stream_socket [0x00, 0x83, 0x00, 0x02, 0x06, 0x00]
        = { result := Except.ok (Value.String []),
            socketBuffer :=
              ⟨5, (stream_socket.Recv [0x00, 0x83, 0x00, 0x02, 0x06, 0x00] 256).1,
                (stream_socket.Recv [0x00, 0x83, 0x00, 0x02, 0x06, 0x00] 256).2⟩ }
      ∧ (main Endian.little stream_socket [0x00, 0x83, 0x00, 0x02, 0x06]).result
        = Except.error DecodeError.UnexpectedEof :=
  ⟨by decide, by decide,
    main_empty_string Endian.little stream_socket [0x00, 0x83, 0x00, 0x02, 0x06, 0x00] [0x00]
      (by decide) (by decide)⟩

/-- A read of no bytes, with a socket that returns the number of bytes it stored: on a reader
that satisfies `mCursor ≤ mBuffer.size()`, `Read( dst, 0 )` returns `true` exactly when an
unread byte is in the accumulator or, there being none, the transport call it then makes (for
256 bytes) brings at least one byte. -/
theorem Read_zero_ok_iff {σ : Type} (sock : ISocket σ) (self : CSocketBuffer σ)
    (hinv : self.mCursor ≤ self.mBuffer.length) (hsz : self.mCursor < SIZE_MOD) :
    (self.Read sock 0).ok = true
      ↔ self.mCursor < self.mBuffer.length ∨ (sock.Recv self.mSocket 256).1 ≠ [] := by
  rw [Read_eq, static_cast_int_256 0 (by decide), Nat.add_zero, Nat.mod_eq_of_lt hsz]
  by_cases hc : self.mCursor < self.mBuffer.length
  · rw [if_neg (by omega)]
    simp [CSocketBuffer.copy_out, hc]
  · rw [if_pos (by omega)]
    by_cases hr : (sock.Recv self.mSocket 256).1 = []
    · rw [if_pos (by rw [hr]; simp; omega)]
      simp [hc, hr]
    · have hpos : 0 < (sock.Recv self.mSocket 256).1.length := List.length_pos.mpr hr
      rw [if_neg (by rw [List.length_append]; omega)]
      simp [CSocketBuffer.copy_out, hr]

/-- C10: for every response whose first transport read brings the magic `00 83`, any two
size bytes and the tag `0x00` (and possibly more), the decoder yields `Null`, the cursor ends at
5, the accumulator holds what the first transport read brought and the socket is in the state
that one `Recv` left, so no further `Recv` was made; the input `00 83 00 02 00` decodes to
`Null` with the cursor at 5. -/
theorem main_null {σ : Type} (native : Endian) (sock : ISocket σ) (s : σ)
    (s0 s1 : Nat) (rest : List Nat)
    (h : (sock.Recv s 256).1 = [0x00, 0x83, s0, s1, 0x00] ++ rest) :
    main native sock s
        = { result := Except.ok Value.Null,
            socketBuffer := ⟨5, (sock.Recv s 256).1, (sock.Recv s 256).2⟩ }
      ∧ main native stream_socket [0x00, 0x83, 0x00, 0x02, 0x00]
        = { result := Except.ok Value.Null,
            socketBuffer := ⟨5, [0x00, 0x83, 0x00, 0x02, 0x00], []⟩ } := by
  constructor
  · rw [main_of_chunk native sock s 0x00 0x83 s0 s1 0x00 rest h]
    simp
  · rw [main_of_chunk native stream_socket [0x00, 0x83, 0x00, 0x02, 0x00] 0x00 0x83 0x00 0x02
      0x00 [] (by decide)]
    simp
    decide

-- A null frame with size bytes `AB CD`, followed by two more bytes.
theorem main_null_witness :
    (stream_socket.Recv [0x00, 0x83, 0xAB, 0xCD, 0x00, 0x11, 0x22] 256).1
        = [0x00, 0x83, 0xAB, 0xCD, 0x00] ++ [0x11, 0x22]
      ∧ (main Endian.big stream_socket [0x00, 0x83, 0xAB, 0xCD, 0x00, 0x11, 0x22]
          = { result := Except.ok Value.Null,
              socketBuffer :=
                ⟨5, (stream_socket.Recv [0x00, 0x83, 0xAB, 0xCD, 0x00, 0x11, 0x22] 256).1,
                  (stream_socket.Recv [0x00, 0x83, 0xAB, 0xCD, 0x00, 0x11, 0x22] 256).2⟩ }
        ∧ main Endian.big stream_socket [0x00, 0x83, 0x00, 0x02, 0x00]
          = { result := Except.ok Value.Null,
              socketBuffer := ⟨5, [0x00, 0x83, 0x00, 0x02, 0x00], []⟩ }) :=
  ⟨by decide,
    main_null Endian.big stream_socket [0x00, 0x83, 0xAB, 0xCD, 0x00, 0x11, 0x22] 0xAB 0xCD
      [0x11, 0x22] (by decide)⟩

/-! ## The frame encoder: round trip, length, compile-time variant -/

/-- C13: for every payload of at most 65529 bytes, the `length` bytes that start at offset 9 of
the output of `bt::encode` are the payload, on either host byte order. -/
theorem encode_payload_at_offset_9 (native : Endian) (payload : List Nat)
    (h : payload.length ≤ 65529) :
    ((bt.encode native payload).2.drop 9).take payload.length = payload := by
  rw [encode_frame native payload (by omega)]
  simp

-- The payload `?ping` on a big-endian host.
theorem encode_payload_at_offset_9_witness :
    ([0x3F, 0x70, 0x69, 0x6E, 0x67] : List Nat).length ≤ 65529
      ∧ ((bt.encode Endian.big [0x3F, 0x70, 0x69, 0x6E, 0x67]).2.drop 9).take
          ([0x3F, 0x70, 0x69, 0x6E, 0x67] : List Nat).length
        = [0x3F, 0x70, 0x69, 0x6E, 0x67] :=
  ⟨by decide, encode_payload_at_offset_9 Endian.big [0x3F, 0x70, 0x69, 0x6E, 0x67] (by decide)⟩

/-- C14: for every payload that `bt::encode` accepts (it returns `EResult::Ok`), the encoded
frame has exactly `10 + length` bytes and its last byte is `0x00`. -/
theorem encode_length_and_pad (native : Endian) (payload : List Nat)
    (hok : (bt.encode native payload).1 = bt.EResult.Ok) :
    (bt.encode native payload).2.length = 10 + payload.length
      ∧ (bt.encode native payload).2.getLast? = some 0x00 := by
  obtain ⟨hi, lo, hshape⟩ := encode_ok_shape native payload hok
  rw [hshape]
  constructor
  · simp
    omega
  · exact List.getLast?_concat _

-- The payload `?ping` on a little-endian host.
theorem encode_length_and_pad_witness :
    (bt.encode Endian.little [0x3F, 0x70, 0x69, 0x6E, 0x67]).1 = bt.EResult.Ok
      ∧ ((bt.encode Endian.little [0x3F, 0x70, 0x69, 0x6E, 0x67]).2.length
          = 10 + ([0x3F, 0x70, 0x69, 0x6E, 0x67] : List Nat).length
        ∧ (bt.encode Endian.little [0x3F, 0x70, 0x69, 0x6E, 0x67]).2.getLast? = some 0x00) :=
  ⟨by decide,
    encode_length_and_pad Endian.little [0x3F, 0x70, 0x69, 0x6E, 0x67] (by decide)⟩

/-- C18 (the code at the failing input): the size `N = 65526` is admitted by `data_fits_v`, but
`message_size_v<65526>` is 0, not 65536, and `encode_array<65526>` has no instance (nine
initializers for an array of 0 elements), whatever the payload; the runtime encoder accepts a
payload of that length. -/
theorem encode_array_65526 :
    bt.data_fits_v 65526 = true
      ∧ bt.message_size_v 65526 = 0
      ∧ (∀ data : List Nat, bt.encode_array Endian.little 65526 data = none)
      ∧ (∀ data : List Nat, data.length = 65526
          → (bt.encode Endian.little data).1 = bt.EResult.Ok) := by
  refine ⟨by decide, by decide, ?_, ?_⟩
  · intro data
    exact (encode_array_wrapped Endian.little 65526 data (by decide) (by decide)).2.2
  · intro data hlen
    rw [encode_frame Endian.little data (by omega)]

/-- C19 (the code at the failing input): for the empty payload on a big-endian host,
`encode_array` emits the size bytes `06 00` (the low byte, then `packet_size << 8` cut to a
`char`, which is 0), where on a little-endian host it emits `00 06`, as `encode` does on both
hosts. -/
theorem encode_array_big_endian_size_bytes :
    bt.encode_array Endian.big 0 [] = some [0x00, 0x83, 0x06, 0x00, 0, 0, 0, 0, 0, 0x00]
      ∧ bt.encode_array Endian.little 0 [] = some [0x00, 0x83, 0x00, 0x06, 0, 0, 0, 0, 0, 0x00]
      ∧ bt.encode Endian.big []
        = (bt.EResult.Ok, [0x00, 0x83, 0x00, 0x06, 0, 0, 0, 0, 0, 0x00])
      ∧ bt.encode Endian.little []
        = (bt.EResult.Ok, [0x00, 0x83, 0x00, 0x06, 0, 0, 0, 0, 0, 0x00]) := by
  decide

/-! ## The buffered reader: invariant, transport calls, slices -/

/-- C15: a freshly constructed `CSocketBuffer` satisfies `mCursor ≤ mBuffer.size()`, and every
call of `Read( dst, n )` on a reader that satisfies it, with a transport that hands back no
more bytes than requested, leaves a reader that satisfies it, whether the call returns `true`
or `false`; the accumulator before the call is a prefix of the accumulator after it, which has
grown by at most `max( n, 256 )` bytes.  The call is one whose `size_t` sum `mCursor + n` does
not wrap, as is the case whenever `dst` has room for `n` bytes. -/
theorem Read_keeps_cursor_in_buffer {σ : Type} (sock : ISocket σ) (self : CSocketBuffer σ)
    (n : Nat) (hinv : self.mCursor ≤ self.mBuffer.length)
    (hsz : self.mCursor + n < SIZE_MOD)
    (hrecv : ((sock.Recv self.mSocket (static_cast_int (max n 256))).1.length : Int)
      ≤ static_cast_int (max n 256)) :
    (∀ socket : σ,
        (CSocketBuffer.ctor socket).mCursor ≤ (CSocketBuffer.ctor socket).mBuffer.length)
      ∧ (self.Read sock n).self.mCursor ≤ (self.Read sock n).self.mBuffer.length
      ∧ self.mBuffer <+: (self.Read sock n).self.mBuffer
      ∧ (self.Read sock n).self.mBuffer.length ≤ self.mBuffer.length + max n 256 := by
  refine ⟨fun _ => Nat.le_refl _, Read_cursor_le sock self n hinv hsz,
    Read_buffer_prefix sock self n, ?_⟩
  have hcast : static_cast_int (max n 256) ≤ ((max n 256 : Nat) : Int) := by
    unfold static_cast_int
    split_ifs <;> omega
  rw [Read_eq]
  split_ifs <;> simp only [CSocketBuffer.copy_out, List.length_append] <;> omega

-- A reader with one unread byte on a finite stream, asked for two bytes.
theorem Read_keeps_cursor_in_buffer_witness :
    (1 : Nat) ≤ ([0x00, 0x83] : List Nat).length
      ∧ (1 : Nat) + 2 < SIZE_MOD
      ∧ ((stream_socket.Recv [0x00, 0x02, 0x00] (static_cast_int (max 2 256))).1.length : Int)
          ≤ static_cast_int (max 2 256)
      ∧ (∀ socket : List Nat,
          (CSocketBuffer.ctor socket).mCursor ≤ (CSocketBuffer.ctor socket).mBuffer.length)
      ∧ (CSocketBuffer.Read stream_socket
              ⟨1, [0x00, 0x83], [0x00, 0x02, 0x00]⟩ 2).self.mCursor
          ≤ (CSocketBuffer.Read stream_socket
              ⟨1, [0x00, 0x83], [0x00, 0x02, 0x00]⟩ 2).self.mBuffer.length
      ∧ [0x00, 0x83] <+: (CSocketBuffer.Read stream_socket
              ⟨1, [0x00, 0x83], [0x00, 0x02, 0x00]⟩ 2).self.mBuffer
      ∧ (CSocketBuffer.Read stream_socket
              ⟨1, [0x00, 0x83], [0x00, 0x02, 0x00]⟩ 2).self.mBuffer.length
          ≤ ([0x00, 0x83] : List Nat).length + max 2 256 :=
  ⟨by decide, by decide, by decide,
    Read_keeps_cursor_in_buffer stream_socket ⟨1, [0x00, 0x83], [0x00, 0x02, 0x00]⟩ 2
      (by decide) (by decide) (by decide)⟩

/-- The transport calls of a read, with a socket that returns the number of bytes it stored:
every call of `Read( dst, n )` with `n ≤ 2147483647` either makes no `Recv` and leaves socket
and accumulator as they were, or makes exactly one `Recv`, with the length `max( n, 256 )`, and
appends the bytes handed back to the accumulator; it makes none when at least `n ≥ 1` unread
bytes are in the accumulator. -/
theorem Read_one_Recv {σ : Type} (sock : ISocket σ) (self : CSocketBuffer σ) (n : Nat)
    (hn : n ≤ 2147483647) :
    (((self.Read sock n).self.mSocket = self.mSocket
          ∧ (self.Read sock n).self.mBuffer = self.mBuffer)
        ∨ ((self.Read sock n).self.mSocket
              = (sock.Recv self.mSocket ((max n 256 : Nat) : Int)).2
          ∧ (self.Read sock n).self.mBuffer
              = self.mBuffer ++ (sock.Recv self.mSocket ((max n 256 : Nat) : Int)).1))
      ∧ (1 ≤ n → self.mCursor + n ≤ self.mBuffer.length
          → (self.Read sock n).self.mSocket = self.mSocket
            ∧ (self.Read sock n).self.mBuffer = self.mBuffer) := by
  rw [Read_eq, static_cast_int_of_lt (max n 256) (by omega)]
  constructor
  · split_ifs <;> simp [CSocketBuffer.copy_out]
  · intro h1 hle
    have hmod : (self.mCursor + n) % SIZE_MOD ≤ self.mBuffer.length :=
      Nat.le_trans (Nat.mod_le _ _) hle
    rw [if_neg (by omega)]
    simp [CSocketBuffer.copy_out]

/-- C17: whenever `Read( dst, n )` returns `true`, the `n` bytes copied to `dst` are the
accumulator bytes at the positions `[c, c + n)`, `c` the cursor before the call, and the
cursor after the call is `c + n`; when a second `Read( dst, m )` on the same reader returns
`true` as well, the bytes of the two reads, in order, are the accumulator bytes at the positions
`[c, c + n + m)`, and the cursor ends at `c + n + m`.  The calls are ones whose `size_t` sums
do not wrap, as is the case whenever `dst` has room for the bytes. -/
theorem Read_true_consecutive_slices {σ : Type} (sock : ISocket σ) (self : CSocketBuffer σ)
    (n m : Nat) (hsz : self.mCursor + n + m < SIZE_MOD)
    (hok : (self.Read sock n).ok = true) :
    (self.Read sock n).dst = ((self.Read sock n).self.mBuffer.drop self.mCursor).take n
      ∧ (self.Read sock n).dst.length = n
      ∧ (self.Read sock n).self.mCursor = self.mCursor + n
      ∧ (((self.Read sock n).self.Read sock m).ok = true
          → (self.Read sock n).dst ++ ((self.Read sock n).self.Read sock m).dst
              = (((self.Read sock n).self.Read sock m).self.mBuffer.drop self.mCursor).take
                  (n + m)
            ∧ ((self.Read sock n).dst ++ ((self.Read sock n).self.Read sock m).dst).length
              = n + m
            ∧ ((self.Read sock n).self.Read sock m).self.mCursor = self.mCursor + n + m) := by
  obtain ⟨hd1, hl1, hc1⟩ := Read_ok_dst sock self n (by omega) hok
  have hlen1 : (self.Read sock n).dst.length = n := by
    rw [hd1, List.length_take, List.length_drop]
    omega
  refine ⟨hd1, hlen1, hc1, ?_⟩
  intro hok2
  obtain ⟨hd2, hl2, hc2⟩ := Read_ok_dst sock (self.Read sock n).self m
    (by rw [hc1]; exact hsz) hok2
  obtain ⟨t, ht⟩ := Read_buffer_prefix sock (self.Read sock n).self m
  have hlen2 : ((self.Read sock n).self.Read sock m).dst.length = m := by
    rw [hd2, List.length_take, List.length_drop]
    omega
  refine ⟨?_, by rw [List.length_append, hlen1, hlen2], by rw [hc2, hc1]⟩
  rw [List.take_add, List.drop_drop, hd2, hc1, hd1]
  congr 1
  rw [← ht, List.drop_append_of_le_length (by omega),
    List.take_append_of_le_length (by rw [List.length_drop]; omega)]

-- A fresh reader on the stream of a null frame: the magic, then the size bytes.
theorem Read_true_consecutive_slices_witness :
    (CSocketBuffer.ctor [0x00, 0x83, 0x00, 0x02, 0x00]).mCursor + 2 + 2 < SIZE_MOD
      ∧ (CSocketBuffer.Read stream_socket
          (CSocketBuffer.ctor [0x00, 0x83, 0x00, 0x02, 0x00]) 2).ok = true
      ∧ (CSocketBuffer.Read stream_socket
          (CSocketBuffer.ctor [0x00, 0x83, 0x00, 0x02, 0x00]) 2).dst = [0x00, 0x83]
      ∧ (CSocketBuffer.Read stream_socket
          (CSocketBuffer.Read stream_socket
            (CSocketBuffer.ctor [0x00, 0x83, 0x00, 0x02, 0x00]) 2).self 2).dst = [0x00, 0x02]
      ∧ (CSocketBuffer.Read stream_socket
          (CSocketBuffer.ctor [0x00, 0x83, 0x00, 0x02, 0x00]) 2).dst
        = ((CSocketBuffer.Read stream_socket
            (CSocketBuffer.ctor [0x00, 0x83, 0x00, 0x02, 0x00]) 2).self.mBuffer.drop
              (CSocketBuffer.ctor [0x00, 0x83, 0x00, 0x02, 0x00]).mCursor).take 2 :=
  ⟨by decide, by set_option maxRecDepth 100000 in decide,
    by set_option maxRecDepth 100000 in decide, by set_option maxRecDepth 100000 in decide,
    (Read_true_consecutive_slices stream_socket
      (CSocketBuffer.ctor [0x00, 0x83, 0x00, 0x02, 0x00]) 2 2 (by decide)
      (by set_option maxRecDepth 100000 in decide)).1⟩

/-! ## The decoder: truncated values, unknown tags, floats -/

/-- C12: for every response whose first transport read brings the magic `00 83`, two size
bytes and a tag byte `t` that is none of `0x06`, `0x2A`, `0x00`, the decoder fails with
`Unsupported type` for `t`: it yields no value, the cursor stays at 5, and the socket is in the
state the first `Recv` left, so no read followed the read of the tag.  However a socket cuts
such a stream into transport reads, the decoder yields no value: it fails with `Unexpected eof`
in the header or with `Unsupported type` for `t` and the cursor at 5. -/
theorem main_unsupported_type {σ : Type} (native : Endian) (sock : ISocket σ) (s : σ)
    (s0 s1 t : Nat) (rest : List Nat)
    (h : (sock.Recv s 256).1 = [0x00, 0x83, s0, s1, t] ++ rest)
    (h06 : t ≠ 0x06) (h2A : t ≠ 0x2A) (h00 : t ≠ 0x00) :
    main native sock s
        = { result := Except.error (DecodeError.UnsupportedType t),
            socketBuffer := ⟨5, (sock.Recv s 256).1, (sock.Recv s 256).2⟩ }
      ∧ ∀ cut : ISocket (List Nat),
          (∀ rest length, (cut.Recv rest length).1 ++ (cut.Recv rest length).2 = rest)
          → (main native cut ([0x00, 0x83, s0, s1, t] ++ rest)).result
              = Except.error DecodeError.UnexpectedEof
            ∨ ((main native cut ([0x00, 0x83, s0, s1, t] ++ rest)).result
                = Except.error (DecodeError.UnsupportedType t)
              ∧ (main native cut ([0x00, 0x83, s0, s1, t] ++ rest)).socketBuffer.mCursor
                = 5) := by
  constructor
  · rw [main_of_chunk native sock s 0x00 0x83 s0 s1 t rest h]
    simp [h06, h2A, h00]
  · intro cut hdel
    rcases main_of_stream native cut hdel s0 s1 t rest with hE | ⟨r, hc, hI, hm⟩
    · exact Or.inl hE
    · have hm' : main native cut ([0x00, 0x83, s0, s1, t] ++ rest) = _ := hm
      rw [hm', if_neg h06, if_neg h2A, if_neg h00]
      exact Or.inr ⟨rfl, hc⟩

-- The tag `0x2B` in a frame of nine bytes, received whole from a finite stream.
theorem main_unsupported_type_witness :
    (stream_socket.Recv [0x00, 0x83, 0x00, 0x06, 0x2B, 0x40, 0x60, 0x00, 0x00] 256).1
        = [0x00, 0x83, 0x00, 0x06, 0x2B] ++ [0x40, 0x60, 0x00, 0x00]
      ∧ (0x2B : Nat) ≠ 0x06 ∧ (0x2B : Nat) ≠ 0x2A ∧ (0x2B : Nat) ≠ 0x00
      ∧ main Endian.little stream_socket [0x00, 0x83, 0x00, 0x06, 0x2B, 0x40, 0x60, 0x00, 0x00]
        = { result := Except.error (DecodeError.UnsupportedType 0x2B),
            socketBuffer :=
              ⟨5, (stream_socket.Recv
                    [0x00, 0x83, 0x00, 0x06, 0x2B, 0x40, 0x60, 0x00, 0x00] 256).1,
                (stream_socket.Recv
                    [0x00, 0x83, 0x00, 0x06, 0x2B, 0x40, 0x60, 0x00, 0x00] 256).2⟩ } :=
  ⟨by decide, by decide, by decide, by decide,
    (main_unsupported_type Endian.little stream_socket
      [0x00, 0x83, 0x00, 0x06, 0x2B, 0x40, 0x60, 0x00, 0x00] 0x00 0x06 0x2B
      [0x40, 0x60, 0x00, 0x00] (by decide) (by decide) (by decide) (by decide)).1⟩

/-- C11: for every response with the magic `00 83`, size bytes that declare the value length
`L` and the tag `0x06`, followed by fewer than `L` bytes and then end of stream, the decoder
fails with `Unexpected eof` and yields no value, however the socket cuts the stream into
transport reads; the input `00 83 00 09 06 'a' 'b' 'c' 'd'` (7 declared, 4 supplied) fails with
`Unexpected eof`. -/
theorem main_string_truncated (native : Endian) (sock : ISocket (List Nat))
    (hdel : ∀ rest length, (sock.Recv rest length).1 ++ (sock.Recv rest length).2 = rest)
    (s0 s1 : Nat) (supplied : List Nat)
    (h : supplied.length < main_dataSize native [s0, s1]) :
    (main native sock ([0x00, 0x83, s0, s1, 0x06] ++ supplied)).result
        = Except.error DecodeError.UnexpectedEof
      ∧ (main native stream_socket
          [0x00, 0x83, 0x00, 0x09, 0x06, 0x61, 0x62, 0x63, 0x64]).result
        = Except.error DecodeError.UnexpectedEof := by
  constructor
  · rcases main_of_stream native sock hdel s0 s1 0x06 supplied with hE | ⟨r, hc, hI, hm⟩
    · exact hE
    · have hL := main_dataSize_lt native [s0, s1]
      have hm' : main native sock ([0x00, 0x83, s0, s1, 0x06] ++ supplied) = _ := hm
      rw [hm', if_pos rfl]
      by_cases e : (r.Read sock (main_dataSize native [s0, s1])).ok = false
      · rw [if_pos e]
      · obtain ⟨-, hl, -⟩ := Read_ok_stream sock hdel r (main_dataSize native [s0, s1])
          (by rw [hc]; unfold SIZE_MOD; omega) (by simpa using e)
        rw [hc, hI] at hl
        simp only [List.length_cons] at hl
        omega
  · cases native <;> set_option maxRecDepth 100000 in decide

-- The frame that declares seven value bytes and supplies `abcd`, received whole.
theorem main_string_truncated_witness :
    (∀ rest length,
        (stream_socket.Recv rest length).1 ++ (stream_socket.Recv rest length).2 = rest)
      ∧ ([0x61, 0x62, 0x63, 0x64] : List Nat).length < main_dataSize Endian.little [0x00, 0x09]
      ∧ (main Endian.little stream_socket
          ([0x00, 0x83, 0x00, 0x09, 0x06] ++ [0x61, 0x62, 0x63, 0x64])).result
        = Except.error DecodeError.UnexpectedEof
      ∧ (main Endian.little stream_socket
          [0x00, 0x83, 0x00, 0x09, 0x06, 0x61, 0x62, 0x63, 0x64]).result
        = Except.error DecodeError.UnexpectedEof :=
  ⟨stream_socket_delivers, by decide,
    main_string_truncated Endian.little stream_socket stream_socket_delivers 0x00 0x09
      [0x61, 0x62, 0x63, 0x64] (by decide)⟩

/-- C20: for every response with the magic `00 83`, any two size bytes and the tag `0x2A`,
however the socket cuts the stream into transport reads: when the decoder succeeds, the cursor
is at 9 and the value is the float made of the four bytes after the tag, whatever the size
bytes are; when fewer than four bytes follow the tag before end of stream, the decoder fails
with `Unexpected eof`; and when at least four bytes follow the tag and the stream is handed
over whole, the decoder succeeds. -/
theorem main_float_four_bytes (native : Endian) (sock : ISocket (List Nat))
    (hdel : ∀ rest length, (sock.Recv rest length).1 ++ (sock.Recv rest length).2 = rest)
    (s0 s1 : Nat) (rest : List Nat) :
    (∀ v, (main native sock ([0x00, 0x83, s0, s1, 0x2A] ++ rest)).result = Except.ok v
        → (main native sock ([0x00, 0x83, s0, s1, 0x2A] ++ rest)).socketBuffer.mCursor = 9
          ∧ v = Value.Float32 (main_float native (rest.take 4)))
      ∧ (rest.length < 4
        → (main native sock ([0x00, 0x83, s0, s1, 0x2A] ++ rest)).result
            = Except.error DecodeError.UnexpectedEof)
      ∧ (4 ≤ rest.length
        → (main native stream_socket ([0x00, 0x83, s0, s1, 0x2A] ++ rest)).result
            = Except.ok (Value.Float32 (main_float native (rest.take 4)))
          ∧ (main native stream_socket
              ([0x00, 0x83, s0, s1, 0x2A] ++ rest)).socketBuffer.mCursor = 9) := by
  refine ⟨?_, ?_, ?_⟩
  · intro v hv
    rcases main_of_stream native sock hdel s0 s1 0x2A rest with hE | ⟨r, hc, hI, hm⟩
    · have hE' : (main native sock ([0x00, 0x83, s0, s1, 0x2A] ++ rest)).result = _ := hE
      rw [hE'] at hv
      cases hv
    · have hm' : main native sock ([0x00, 0x83, s0, s1, 0x2A] ++ rest) = _ := hm
      rw [hm', if_neg (by decide), if_pos rfl] at hv ⊢
      by_cases e : (r.Read sock 4).ok = false
      · rw [if_pos e] at hv
        cases hv
      · obtain ⟨hd, -, hcur⟩ := Read_ok_stream sock hdel r 4
          (by rw [hc]; decide) (by simpa using e)
        rw [if_neg e] at hv ⊢
        rw [hc, hI] at hd
        have hd' : (r.Read sock 4).dst = rest.take 4 := hd
        simp only [Except.ok.injEq] at hv
        rw [hd'] at hv
        exact ⟨by rw [hcur, hc], hv.symm⟩
  · intro hlt
    rcases main_of_stream native sock hdel s0 s1 0x2A rest with hE | ⟨r, hc, hI, hm⟩
    · exact hE
    · have hm' : main native sock ([0x00, 0x83, s0, s1, 0x2A] ++ rest) = _ := hm
      rw [hm', if_neg (by decide), if_pos rfl]
      by_cases e : (r.Read sock 4).ok = false
      · rw [if_pos e]
      · obtain ⟨-, hl, -⟩ := Read_ok_stream sock hdel r 4
          (by rw [hc]; decide) (by simpa using e)
        rw [hc, hI] at hl
        simp only [List.length_cons] at hl
        omega
  · intro hge
    have hrecv : (stream_socket.Recv ([0x00, 0x83, s0, s1, 0x2A] ++ rest) 256).1
        = [0x00, 0x83, s0, s1, 0x2A] ++ rest.take 251 := rfl
    rw [main_float_of_chunk native stream_socket _ s0 s1 (rest.take 251)
      (by rw [List.length_take]; omega) hrecv]
    refine ⟨?_, rfl⟩
    show Except.ok (Value.Float32 (main_float native ((rest.take 251).take 4))) = _
    rw [List.take_take]
    rfl

-- The float frame of 3.5 with the size bytes `FF FF`, received whole.
theorem main_float_four_bytes_witness :
    (∀ rest length,
        (stream_socket.Recv rest length).1 ++ (stream_socket.Recv rest length).2 = rest)
      ∧ (main Endian.little stream_socket
          ([0x00, 0x83, 0xFF, 0xFF, 0x2A] ++ [0x00, 0x00, 0x60, 0x40])).result
        = Except.ok (Value.Float32 0x40600000)
      ∧ (main Endian.little stream_socket
          ([0x00, 0x83, 0xFF, 0xFF, 0x2A] ++ [0x00, 0x00, 0x60, 0x40])).socketBuffer.mCursor
        = 9 :=
  ⟨stream_socket_delivers,
    (main_float_four_bytes Endian.little stream_socket stream_socket_delivers 0xFF 0xFF
      [0x00, 0x00, 0x60, 0x40]).2.2 (by decide)⟩

/-! ## The value length and failed reads -/

/-- C21: the decoder computes the value length from the size bytes `hi lo` as
`(size - 2) mod 2^16`, `size = 256 * hi + lo`, on either host byte order: it is `size - 2` for
a size of 2 or more, 65534 for the size 0 and 65535 for the size 1.  A string frame with the
size 0 or 1 is not rejected: handed over whole with more than 65534 (65535) bytes after the
tag, it decodes to the string of the first 65534 (65535) of them, and followed by fewer bytes
than that it fails with `Unexpected eof`, however the socket cuts the stream. -/
theorem main_dataSize_wraps (native : Endian) (hi lo : Nat) (hhi : hi < 256)
    (hlo : lo < 256) :
    main_dataSize native [hi, lo] = (hi * 256 + lo + 65536 - 2) % 65536
      ∧ (2 ≤ hi * 256 + lo → main_dataSize native [hi, lo] = hi * 256 + lo - 2)
      ∧ main_dataSize native [0x00, 0x00] = 65534
      ∧ main_dataSize native [0x00, 0x01] = 65535
      ∧ (hi * 256 + lo < 2
          → ∀ rest : List Nat, 65534 + (hi * 256 + lo) < rest.length
            → (main native stream_socket ([0x00, 0x83, hi, lo, 0x06] ++ rest)).result
                = Except.ok (Value.String (rest.take (65534 + (hi * 256 + lo)))))
      ∧ (hi * 256 + lo < 2
          → ∀ (sock : ISocket (List Nat)) (rest : List Nat),
            (∀ rest length, (sock.Recv rest length).1 ++ (sock.Recv rest length).2 = rest)
            → rest.length < 65534 + (hi * 256 + lo)
            → (main native sock ([0x00, 0x83, hi, lo, 0x06] ++ rest)).result
                = Except.error DecodeError.UnexpectedEof) := by
  have heq := main_dataSize_eq native hi lo hhi hlo
  have h0 := main_dataSize_eq native 0x00 0x00 (by decide) (by decide)
  have h1 := main_dataSize_eq native 0x00 0x01 (by decide) (by decide)
  refine ⟨heq, ?_, by rw [h0], by rw [h1], ?_, ?_⟩
  · intro h2
    rw [heq]
    omega
  · intro hlt rest hrest
    have hsize : main_dataSize native [hi, lo] = 65534 + (hi * 256 + lo) := by
      rw [heq]
      omega
    have hdec := (main_string_of_stream_socket native hi lo rest (by rw [hsize]; exact hrest)).1
    rw [hsize] at hdec
    exact hdec
  · intro hlt sock rest hdel hrest
    have hsize : main_dataSize native [hi, lo] = 65534 + (hi * 256 + lo) := by
      rw [heq]
      omega
    exact main_string_eof_of_short native sock hdel hi lo rest (by rw [hsize]; exact hrest)

-- The size bytes `00 01` on a little-endian host.
theorem main_dataSize_wraps_witness :
    (0x00 : Nat) < 256 ∧ (0x01 : Nat) < 256
      ∧ main_dataSize Endian.little [0x00, 0x01] = (0x00 * 256 + 0x01 + 65536 - 2) % 65536
      ∧ main_dataSize Endian.little [0x00, 0x01] = 65535 :=
  ⟨by decide, by decide,
    (main_dataSize_wraps Endian.little 0x00 0x01 (by decide) (by decide)).1,
    (main_dataSize_wraps Endian.little 0x00 0x01 (by decide) (by decide)).2.2.2.1⟩

/-- A failed read, with a socket that returns the number of bytes it stored: whenever
`Read( dst, n )` returns `false`, the cursor is where it was and nothing was copied to `dst`,
while the accumulator is the old accumulator followed by every byte the one `Recv` of the call
handed back, and the socket is in the state that `Recv` left; a later `Read( dst, m )` on the
same reader that finds its `m` bytes among the unread ones returns them from the accumulator,
the bytes of that `Recv` included, without a transport call. -/
theorem Read_false_keeps_received {σ : Type} (sock : ISocket σ) (self : CSocketBuffer σ)
    (n : Nat) (hok : (self.Read sock n).ok = false) :
    (self.Read sock n).self.mCursor = self.mCursor
      ∧ (self.Read sock n).dst = []
      ∧ (self.Read sock n).self.mBuffer
          = self.mBuffer ++ (sock.Recv self.mSocket (static_cast_int (max n 256))).1
      ∧ (self.Read sock n).self.mSocket
          = (sock.Recv self.mSocket (static_cast_int (max n 256))).2
      ∧ ∀ m : Nat,
          self.mCursor < (self.Read sock n).self.mBuffer.length
          → self.mCursor + m ≤ (self.Read sock n).self.mBuffer.length
          → self.mCursor + m < SIZE_MOD
          → (self.Read sock n).self.Read sock m
              = { ok := true,
                  dst := ((self.mBuffer
                    ++ (sock.Recv self.mSocket (static_cast_int (max n 256))).1).drop
                      self.mCursor).take m,
                  self := ⟨self.mCursor + m,
                    self.mBuffer ++ (sock.Recv self.mSocket (static_cast_int (max n 256))).1,
                    (sock.Recv self.mSocket (static_cast_int (max n 256))).2⟩ } := by
  have hself : (self.Read sock n).self
      = ⟨self.mCursor,
          self.mBuffer ++ (sock.Recv self.mSocket (static_cast_int (max n 256))).1,
          (sock.Recv self.mSocket (static_cast_int (max n 256))).2⟩ := by
    rw [Read_eq] at hok ⊢
    split_ifs at hok ⊢ with h1 h2
    · rfl
    · simp [CSocketBuffer.copy_out] at hok
    · simp [CSocketBuffer.copy_out] at hok
  refine ⟨(Read_fail_cursor sock self n hok).1, (Read_fail_cursor sock self n hok).2,
    by rw [hself], by rw [hself], ?_⟩
  intro m hc hm hsz
  rw [hself] at hc hm ⊢
  exact Read_buffered sock self.mCursor _ _ m hc hm hsz

/-- A read that returns `false` has left the cursor where it was and has copied nothing,
whatever `Recv` returned. -/
theorem ReadC_false_cursor {σ : Type} (sock : ISocketC σ) (self : CSocketBuffer σ) (n : Nat)
    (r : ReadResult σ) (hr : self.ReadC sock n = some r) (hok : r.ok = false) :
    r.self.mCursor = self.mCursor ∧ r.dst = [] := by
  unfold CSocketBuffer.ReadC at hr
  dsimp only at hr
  split_ifs at hr
  all_goals
    simp only [Option.some.injEq] at hr
    subst hr
    first
      | exact ⟨rfl, rfl⟩
      | simp [CSocketBuffer.copy_out] at hok

/-- A failed read with a `Recv` that returns the number of bytes it stored, no more than were
asked for: the accumulator is the old one followed by those bytes. -/
theorem ReadC_false_keeps_received {σ : Type} (sock : ISocketC σ) (self : CSocketBuffer σ)
    (n : Nat) (hfit : self.mBuffer.length + max n 256 ≤ PTRDIFF_MAX)
    (hcount : (sock.Recv self.mSocket (static_cast_int (max n 256))).1
      = (sock.Recv self.mSocket (static_cast_int (max n 256))).2.1.length)
    (hle : (sock.Recv self.mSocket (static_cast_int (max n 256))).1 ≤ max n 256)
    (r : ReadResult σ) (hr : self.ReadC sock n = some r) (hok : r.ok = false) :
    r.self.mCursor = self.mCursor ∧ r.dst = []
      ∧ r.self.mBuffer
          = self.mBuffer ++ (sock.Recv self.mSocket (static_cast_int (max n 256))).2.1
      ∧ r.self.mSocket = (sock.Recv self.mSocket (static_cast_int (max n 256))).2.2 := by
  rw [ReadC_eq_Read sock self n hfit hcount hle, Option.some.injEq] at hr
  subst hr
  obtain ⟨h1, h2, h3, h4, -⟩ := Read_false_keeps_received sock.bytes self n hok
  exact ⟨h1, h2, h3, h4⟩

/-! ## The buffered reader and the `size_t` that `Recv` returns -/

/-- C9 (counterexample): on a fresh reader whose transport is at end of stream, where `Recv`
returns 0 and stores nothing, `Read( dst, 0 )` returns `false`. -/
theorem ReadC_zero_at_eof :
    CSocketBuffer.ReadC stream_socket.toC { mCursor := 0, mBuffer := [], mSocket := [] } 0
      = some { ok := false, dst := [],
               self := { mCursor := 0, mBuffer := [], mSocket := [] } } := by
  set_option maxRecDepth 100000 in decide

/-- C9 (amended): on a reader that satisfies `mCursor ≤ mBuffer.size()` and whose accumulator
can grow by 256 bytes, with a transport whose `Recv` returns the number of bytes it stored,
between 0 and the 256 asked for, `Read( dst, 0 )` returns, and it returns `true` exactly when
an unread byte is in the accumulator or, there being none, the one `Recv` it then makes brings
at least one byte; with no unread byte and the transport at end of stream it returns
`false`. -/
theorem ReadC_zero_ok_iff {σ : Type} (sock : ISocketC σ) (self : CSocketBuffer σ)
    (hinv : self.mCursor ≤ self.mBuffer.length)
    (hfit : self.mBuffer.length + 256 ≤ PTRDIFF_MAX)
    (hcount : (sock.Recv self.mSocket 256).1 = (sock.Recv self.mSocket 256).2.1.length)
    (hle : (sock.Recv self.mSocket 256).1 ≤ 256) :
    ∃ r : ReadResult σ, self.ReadC sock 0 = some r
      ∧ (r.ok = true
          ↔ self.mCursor < self.mBuffer.length ∨ (sock.Recv self.mSocket 256).2.1 ≠ []) := by
  have hreq : static_cast_int (max 0 256) = 256 := static_cast_int_256 0 (by decide)
  refine ⟨self.Read sock.bytes 0, ?_, ?_⟩
  · exact ReadC_eq_Read sock self 0 hfit (by rw [hreq]; exact hcount) (by rw [hreq]; exact hle)
  · exact Read_zero_ok_iff sock.bytes self hinv
      (by unfold SIZE_MOD; unfold PTRDIFF_MAX at hfit; omega)

-- A fresh reader on a stream of one byte.
theorem ReadC_zero_ok_iff_witness :
    (0 : Nat) ≤ ([] : List Nat).length
      ∧ ([] : List Nat).length + 256 ≤ PTRDIFF_MAX
      ∧ (stream_socket.toC.Recv [0x2A] 256).1 = (stream_socket.toC.Recv [0x2A] 256).2.1.length
      ∧ (stream_socket.toC.Recv [0x2A] 256).1 ≤ 256
      ∧ CSocketBuffer.ReadC stream_socket.toC { mCursor := 0, mBuffer := [], mSocket := [0x2A] } 0
          = some { ok := true, dst := [],
                   self := { mCursor := 0, mBuffer := [0x2A], mSocket := [] } }
      ∧ ∃ r : ReadResult (List Nat),
          CSocketBuffer.ReadC stream_socket.toC
              { mCursor := 0, mBuffer := [], mSocket := [0x2A] } 0 = some r
            ∧ (r.ok = true
                ↔ (0 : Nat) < ([] : List Nat).length
                  ∨ (stream_socket.toC.Recv [0x2A] 256).2.1 ≠ []) :=
  ⟨by decide, by decide, by decide, by decide, by set_option maxRecDepth 100000 in decide,
    ReadC_zero_ok_iff stream_socket.toC { mCursor := 0, mBuffer := [], mSocket := [0x2A] }
      (by decide) (by decide) (by decide) (by decide)⟩

/-- C16 (counterexample): a fresh reader asked for `2147483648` bytes calls `Recv` with the
length `-2147483648`, the `size_t` value cut to `int`, not with `max( n, 256 )`; the transport
returns 0 and stores nothing. -/
theorem ReadC_request_above_INT_MAX :
    (CSocketBuffer.ReadC probe_socket.toC (CSocketBuffer.ctor []) 2147483648).map
        (fun r => r.self.mSocket) = some [-2147483648]
      ∧ (-2147483648 : Int) ≠ ((max 2147483648 256 : Nat) : Int) := by
  constructor
  · have hcast : static_cast_int 2147483648 = -2147483648 := by decide
    rw [ReadC_eq_Read probe_socket.toC (CSocketBuffer.ctor []) 2147483648 (by decide) rfl
      (Nat.zero_le _), Read_eq]
    simp [CSocketBuffer.ctor, probe_socket, ISocket.toC, ISocketC.bytes, hcast, SIZE_MOD]
  · decide

/-- C16 (amended): every call of `Read( dst, n )` with `n ≤ 2147483647`, on a reader whose
accumulator can grow by `max( n, 256 )` bytes and with a transport whose `Recv` returns the
number of bytes it stored, between 0 and the number asked for, returns, and either has made no
`Recv` and left socket and accumulator as they were, or has made exactly one `Recv`, with the
length `max( n, 256 )`, and has appended the bytes it stored to the accumulator; a call that
finds at least `n ≥ 1` unread bytes in the accumulator returns and has made no `Recv`, whatever
the transport. -/
theorem ReadC_one_Recv {σ : Type} (sock : ISocketC σ) (self : CSocketBuffer σ) (n : Nat)
    (hn : n ≤ 2147483647) :
    (self.mBuffer.length + max n 256 ≤ PTRDIFF_MAX
        → (sock.Recv self.mSocket ((max n 256 : Nat) : Int)).1
            = (sock.Recv self.mSocket ((max n 256 : Nat) : Int)).2.1.length
        → (sock.Recv self.mSocket ((max n 256 : Nat) : Int)).1 ≤ max n 256
        → ∃ r : ReadResult σ, self.ReadC sock n = some r
            ∧ ((r.self.mSocket = self.mSocket ∧ r.self.mBuffer = self.mBuffer)
              ∨ (r.self.mSocket = (sock.Recv self.mSocket ((max n 256 : Nat) : Int)).2.2
                ∧ r.self.mBuffer
                  = self.mBuffer
                    ++ (sock.Recv self.mSocket ((max n 256 : Nat) : Int)).2.1)))
      ∧ (1 ≤ n → self.mCursor + n ≤ self.mBuffer.length
          → ∃ r : ReadResult σ, self.ReadC sock n = some r
              ∧ r.self.mSocket = self.mSocket ∧ r.self.mBuffer = self.mBuffer) := by
  have hreq : static_cast_int (max n 256) = ((max n 256 : Nat) : Int) :=
    static_cast_int_of_lt (max n 256) (by omega)
  constructor
  · intro hfit hcount hle
    refine ⟨self.Read sock.bytes n, ?_, (Read_one_Recv sock.bytes self n hn).1⟩
    exact ReadC_eq_Read sock self n hfit (by rw [hreq]; exact hcount) (by rw [hreq]; exact hle)
  · intro h1 hle
    have hmod : (self.mCursor + n) % SIZE_MOD ≤ self.mBuffer.length :=
      Nat.le_trans (Nat.mod_le _ _) hle
    refine ⟨self.copy_out n, ?_, rfl, rfl⟩
    unfold CSocketBuffer.ReadC
    rw [if_neg (by omega)]

-- A fresh reader on a finite stream, asked for two bytes.
theorem ReadC_one_Recv_witness :
    (2 : Nat) ≤ 2147483647
      ∧ (CSocketBuffer.ctor [7, 8, 9]).mBuffer.length + max 2 256 ≤ PTRDIFF_MAX
      ∧ (stream_socket.toC.Recv [7, 8, 9] ((max 2 256 : Nat) : Int)).1
          = (stream_socket.toC.Recv [7, 8, 9] ((max 2 256 : Nat) : Int)).2.1.length
      ∧ (stream_socket.toC.Recv [7, 8, 9] ((max 2 256 : Nat) : Int)).1 ≤ max 2 256
      ∧ CSocketBuffer.ReadC stream_socket.toC (CSocketBuffer.ctor [7, 8, 9]) 2
          = some { ok := true, dst := [7, 8],
                   self := { mCursor := 2, mBuffer := [7, 8, 9], mSocket := [] } }
      ∧ ∃ r : ReadResult (List Nat),
          CSocketBuffer.ReadC stream_socket.toC (CSocketBuffer.ctor [7, 8, 9]) 2 = some r
            ∧ ((r.self.mSocket = (CSocketBuffer.ctor [7, 8, 9]).mSocket
                ∧ r.self.mBuffer = (CSocketBuffer.ctor [7, 8, 9]).mBuffer)
              ∨ (r.self.mSocket
                  = (stream_socket.toC.Recv (CSocketBuffer.ctor [7, 8, 9]).mSocket
                      ((max 2 256 : Nat) : Int)).2.2
                ∧ r.self.mBuffer
                  = (CSocketBuffer.ctor [7, 8, 9]).mBuffer
                    ++ (stream_socket.toC.Recv (CSocketBuffer.ctor [7, 8, 9]).mSocket
                      ((max 2 256 : Nat) : Int)).2.1)) :=
  ⟨by decide, by decide, by decide, by decide, by set_option maxRecDepth 100000 in decide,
    (ReadC_one_Recv stream_socket.toC (CSocketBuffer.ctor [7, 8, 9]) 2 (by decide)).1
      (by decide) (by decide) (by decide)⟩

/-- C22 (the code at the failing input): the reader has read the header `00 83 00 03 06` of
a string frame, so that the cursor is 5 with no unread byte, and is asked for the one value
byte; the system's `recv` fails, so that `Recv` returns `SIZE_MAX`.  `Read` returns `false`
with the cursor still at 5, but the accumulator is not the old one followed by what was
received: it has lost its last byte and is shorter than the cursor.  On a fresh reader the
same call does not return. -/
theorem ReadC_recv_error_loses_byte :
    CSocketBuffer.ReadC (CUnixSocket recv_error)
        { mCursor := 5, mBuffer := [0x00, 0x83, 0x00, 0x03, 0x06], mSocket := () } 1
        = some { ok := false, dst := [],
                 self := { mCursor := 5, mBuffer := [0x00, 0x83, 0x00, 0x03],
                           mSocket := () } }
      ∧ ((CUnixSocket recv_error).Recv () 256).1 = SIZE_MAX
      ∧ CSocketBuffer.ReadC (CUnixSocket recv_error) (CSocketBuffer.ctor ()) 1 = none := by
  set_option maxRecDepth 100000 in decide
